import Mathlib

/-!
Shallow embedding of the scope-spider emissions-extraction core
(`backend/domain/utils/verification.py`, `backend/domain/s0_stats.py`,
`backend/app/services/verification.py` and the pydantic data model), with
theorems settling the frozen claims about it.

Text is modelled as Lean `String`/`List Char` (the inputs of interest are
ASCII), Python `float` values as exact rational arithmetic (`Frac`, an
unreduced fraction with a `toRat` interpretation — every numeric literal the
code manipulates is an exact decimal), and Python `datetime` values as an
abstract `Nat` clock passed in by the caller.
-/

namespace ScopeSpider

/-! ### Exact rational scores (model of Python float arithmetic)

The extraction engine computes match scores, confidences and unit-converted
values with Python floats.  We model them as exact fractions; comparisons are
by cross-multiplication, which agrees with the rational order whenever the
denominators are positive, and every constructor below produces a positive
denominator. -/

structure Frac where
  num : ℤ
  den : ℤ
  deriving DecidableEq, Repr

namespace Frac

/-- Embed an integer. -/
def ofInt (n : ℤ) : Frac := ⟨n, 1⟩

/-- Value-level strict order (cross multiplication; dens are positive). -/
def lt (a b : Frac) : Bool := a.num * b.den < b.num * a.den

/-- Value-level order (cross multiplication; dens are positive). -/
def le (a b : Frac) : Bool := a.num * b.den ≤ b.num * a.den

/-- Value-level equality test (Python `==` on floats). -/
def beq (a b : Frac) : Bool := a.num * b.den == b.num * a.den

/-- Python `max` of two numbers (returns the first argument on ties). -/
def maxF (a b : Frac) : Frac := if lt a b then b else a

/-- Python `min` of two numbers (returns the first argument on ties). -/
def minF (a b : Frac) : Frac := if lt b a then b else a

/-- Subtract an integer. -/
def subInt (a : Frac) (k : ℤ) : Frac := ⟨a.num - k * a.den, a.den⟩

/-- Multiply by an integer. -/
def mulInt (a : Frac) (k : ℤ) : Frac := ⟨a.num * k, a.den⟩

/-- Divide by 100 (used for `score / 100.0` and `expected * 0.01`). -/
def div100 (a : Frac) : Frac := ⟨a.num, a.den * 100⟩

/-- The rational value of a fraction. -/
def toRat (a : Frac) : ℚ := (a.num : ℚ) / (a.den : ℚ)

/-- Python `round` (banker's rounding, half to even) of `num/den`, `den > 0`:
the floor, plus one when the fractional part exceeds a half or equals a half
at an odd floor. -/
def roundHalfEven (a : Frac) : ℤ :=
  if 2 * (a.num - Int.fdiv a.num a.den * a.den) < a.den then Int.fdiv a.num a.den
  else if a.den < 2 * (a.num - Int.fdiv a.num a.den * a.den) then
    Int.fdiv a.num a.den + 1
  else if Int.fdiv a.num a.den % 2 = 0 then Int.fdiv a.num a.den
  else Int.fdiv a.num a.den + 1

end Frac

/-! ### Python string primitives -/

/-- Python `str.isspace` / the `\s` character class (ASCII fragment). -/
def py_isspace (c : Char) : Bool :=
  c = ' ' || c = '\t' || c = '\n' || c = '\r' || c = Char.ofNat 11 || c = Char.ofNat 12

/-- `pat` matches at the head of `l` (exact characters). -/
def starts_exact : List Char → List Char → Bool
  | [], _ => true
  | _ :: _, [] => false
  | p :: ps, c :: cs => p == c && starts_exact ps cs

/-- Python `pat in hay` (contiguous substring containment). -/
def sub_list (pat : List Char) : List Char → Bool
  | [] => starts_exact pat []
  | c :: cs => starts_exact pat (c :: cs) || sub_list pat cs

/-- Python `pat in hay` on strings. -/
def py_in (pat hay : String) : Bool := sub_list pat.data hay.data

/-- Python `str.lower()` (ASCII). -/
def lower_str (s : String) : String := ⟨s.data.map Char.toLower⟩

/-- Python `str.strip()` with no arguments. -/
def strip_list (l : List Char) : List Char :=
  ((l.dropWhile py_isspace).reverse.dropWhile py_isspace).reverse

/-- Python `str.strip()` on strings. -/
def py_strip (s : String) : String := ⟨strip_list s.data⟩

/-- Python `str.splitlines()` (recognising `\r\n`, `\r` and `\n`). -/
def split_lines_go : List Char → List Char → List (List Char)
  | [], acc => if acc.isEmpty then [] else [acc.reverse]
  | '\r' :: '\n' :: rest, acc => acc.reverse :: split_lines_go rest []
  | '\r' :: rest, acc => acc.reverse :: split_lines_go rest []
  | '\n' :: rest, acc => acc.reverse :: split_lines_go rest []
  | c :: rest, acc => split_lines_go rest (c :: acc)

/-- Python `str.splitlines()` on strings. -/
def split_lines (s : String) : List String :=
  (split_lines_go s.data []).map fun l => ⟨l⟩

/-- Python `a or b` on optional strings (`None` and `""` are falsy). -/
def py_or_opt (a b : Option String) : Option String :=
  match a with
  | some t => if t = "" then b else some t
  | none => b

/-- Python `a or None` on an optional string (`""` becomes `None`). -/
def py_truthy_opt (a : Option String) : Option String :=
  match a with
  | some t => if t = "" then none else some t
  | none => none

/-! ### Fuzzy partial score (model of `rapidfuzz.fuzz.partial_ratio`)

`rapidfuzz.fuzz.partial_ratio` slides the shorter string over the longer one
(full-length windows plus windows hanging off either edge, skipping windows
whose boundary character does not occur in the shorter string) and takes the
best normalized Indel similarity, scaled to `[0, 100]`. -/

/-- One row of the longest-common-subsequence DP table.
`prev` is the previous row (headed by its `j = 0` entry), `left` the entry
just computed for the current row. -/
def lcs_row_go (c : Char) : List Char → List Nat → Nat → List Nat
  | [], _, _ => []
  | _ :: _, [], _ => []
  | y :: ys, p0 :: ps, left =>
    let p1 := match ps with | [] => 0 | q :: _ => q
    let v := if c == y then p0 + 1 else Nat.max p1 left
    v :: lcs_row_go c ys ps v

/-- Length of the longest common subsequence of two character lists. -/
def lcs (xs ys : List Char) : Nat :=
  let init := List.replicate (ys.length + 1) 0
  let final := xs.foldl (fun row c => 0 :: lcs_row_go c ys row 0) init
  final.getLastD 0

/-- Normalized Indel similarity scaled to `[0, 100]`:
`100 * (1 - dist/(|xs|+|ys|))` with `dist = |xs|+|ys| - 2*lcs`. -/
def indel_sim (xs ys : List Char) : Frac :=
  if xs.length + ys.length = 0 then Frac.ofInt 100
  else ⟨200 * (lcs xs ys : ℤ), (xs.length : ℤ) + (ys.length : ℤ)⟩

/-- Best window score of the shorter string `s1` inside the longer `s2`:
prefix windows `s2[:i]`, full windows `s2[i:i+len1]` and suffix windows
`s2[i:]`, each considered only when its boundary character occurs in `s1`. -/
def score_impl (s1 s2 : List Char) : Frac :=
  let len1 := s1.length
  let len2 := s2.length
  let prefW := (List.range len1).filterMap fun i =>
    if i = 0 then none else
    let w := s2.take i
    match w.getLast? with
    | some c => if s1.contains c then some w else none
    | none => none
  let midW := (List.range (len2 - len1 + 1)).filterMap fun i =>
    let w := (s2.drop i).take len1
    match w.getLast? with
    | some c => if s1.contains c then some w else none
    | none => none
  let sufW := (List.range len2).filterMap fun i =>
    if i + len1 ≤ len2 then none else
    let w := s2.drop i
    match w.head? with
    | some c => if s1.contains c then some w else none
    | none => none
  (prefW ++ midW ++ sufW).foldl (fun best w => Frac.maxF best (indel_sim s1 w))
    (Frac.ofInt 0)

/-- One direction of the partial score: best alignment of the (shorter)
`sh` inside `lo`, with the second pass rapidfuzz performs when both strings
have equal length and the first pass was not a perfect 100. -/
def fuzz_score_dir (sh lo : List Char) : Frac :=
  if sh.length = lo.length ∧ ¬ (Frac.beq (score_impl sh lo) (Frac.ofInt 100) = true) then
    Frac.maxF (score_impl sh lo) (score_impl lo sh)
  else score_impl sh lo

/-- Model of `rapidfuzz.fuzz.partial_ratio` (a score in `[0, 100]`). -/
def fuzz_score (a b : String) : Frac :=
  if a.data.isEmpty && b.data.isEmpty then Frac.ofInt 100
  else if a.data.length ≤ b.data.length then fuzz_score_dir a.data b.data
  else fuzz_score_dir b.data a.data

/-! ### The value regex

`_VALUE_RE = (-?\d[\d,\s]*(?:\.\d+)?)\s*(mt|kt|t|kg)?(?:\s*(?:co2e|co₂e|co2|tonnes|tons))?`
(case-insensitive).  Since everything after the first group is optional, the
Python engine never backtracks into the greedy character-class run, so the
match is computed directly: optional sign, a digit, a greedy `[\d,\s]*` run,
an optional `\.\d+`, greedy `\s*`, an optional unit token (alternatives in
order), and an optional `\s*`-prefixed CO2 token (all-or-nothing, since no
alternative starts with whitespace). -/

/-- A match of `_VALUE_RE`: span `[mstart, stop)` plus the two groups. -/
structure ValueMatch where
  mstart : Nat
  stop : Nat
  group1 : String
  group2 : Option String
  deriving DecidableEq, Repr

/-- The `[\d,\s]` character class. -/
def num_class (c : Char) : Bool := c.isDigit || c = ',' || py_isspace c

/-- `\d[\d,\s]*(?:\.\d+)?` at the head of the list: `(group, rest)`. -/
def match_number : List Char → Option (List Char × List Char)
  | [] => none
  | c :: rest =>
    if c.isDigit then
      let s := List.span num_class rest
      match s.2 with
      | '.' :: r2 =>
        let f := List.span Char.isDigit r2
        if f.1.isEmpty then some (c :: s.1, s.2)
        else some (c :: s.1 ++ '.' :: f.1, f.2)
      | _ => some (c :: s.1, s.2)
    else none

/-- `-?\d[\d,\s]*(?:\.\d+)?` at the head of the list. -/
def match_group1 : List Char → Option (List Char × List Char)
  | '-' :: rest => (match_number rest).map fun g => ('-' :: g.1, g.2)
  | l => match_number l

/-- Case-insensitive token match at the head of the list (token lowercase). -/
def starts_lower : List Char → List Char → Bool
  | [], _ => true
  | _ :: _, [] => false
  | t :: ts, c :: cs => (c.toLower == t) && starts_lower ts cs

/-- First alternative of `toks` matching at the head of `l` (regex `(a|b|…)`). -/
def match_alt (toks : List (List Char)) (l : List Char) : Option (List Char × List Char) :=
  toks.findSome? fun t =>
    if starts_lower t l then some (l.take t.length, l.drop t.length) else none

def unit_tokens : List (List Char) := ["mt".data, "kt".data, "t".data, "kg".data]

def co2_tokens : List (List Char) :=
  ["co2e".data, "co₂e".data, "co2".data, "tonnes".data, "tons".data]

/-- Match `_VALUE_RE` at position `i` of `s`. -/
def value_match_core (s : List Char) (i : Nat) : Option ValueMatch :=
  match match_group1 (s.drop i) with
  | none => none
  | some (g1, r1) =>
    let sp1 := List.span py_isspace r1
    let ur : Option (List Char) × List Char :=
      match match_alt unit_tokens sp1.2 with
      | some (u, r) => (some u, r)
      | none => (none, sp1.2)
    let base_stop := i + g1.length + sp1.1.length +
      (match ur.1 with | some u => u.length | none => 0)
    let sp2 := List.span py_isspace ur.2
    match match_alt co2_tokens sp2.2 with
    | some (t, _) =>
      some ⟨i, base_stop + sp2.1.length + t.length, ⟨g1⟩, ur.1.map fun u => (⟨u⟩ : String)⟩
    | none => some ⟨i, base_stop, ⟨g1⟩, ur.1.map fun u => (⟨u⟩ : String)⟩

/-- Python `_VALUE_RE.search`: the match at the leftmost matching position. -/
def value_search (s : String) : Option ValueMatch :=
  (List.range s.data.length).findSome? fun i => value_match_core s.data i

/-- Python `_VALUE_RE.finditer`: successive non-overlapping matches. -/
def value_finditer_go (s : List Char) : Nat → Nat → List ValueMatch
  | 0, _ => []
  | fuel + 1, i =>
    match (List.range' i (s.length - i)).findSome? (fun j => value_match_core s j) with
    | none => []
    | some m => m :: value_finditer_go s fuel m.stop

/-- Python `list(_VALUE_RE.finditer(line))`. -/
def value_finditer (s : String) : List ValueMatch :=
  value_finditer_go s.data (s.data.length + 1) 0

/-! ### Unit inference and value normalization -/

def scope1_patterns : List String :=
  ["total scope 1", "scope 1 emissions", "scope i emissions", "scope 1"]

def scope2_patterns : List String :=
  ["total scope 2", "scope 2 emissions", "scope ii emissions", "scope 2"]

def scope3_patterns : List String :=
  ["total scope 3", "scope 3 emissions", "scope iii emissions", "scope 3"]

/-- `_UNIT_HINTS`, in source order. -/
def unit_hints : List (String × String) :=
  [("mtco2", "mt"), ("mt co2", "mt"), ("million tonnes", "mt"),
   ("ktco2", "kt"), ("kt co2", "kt"), ("thousand tonnes", "kt"),
   ("tco2", "t"), (" t co2", "t"), ("tonnes co2", "t"), ("tons co2", "t")]

/-- `_METHOD_HINTS`, in source order. -/
def method_hints : List (String × String) :=
  [("market-based", "market"), ("market based", "market"), ("market", "market"),
   ("location-based", "location"), ("location based", "location"),
   ("locational", "location"), ("location", "location")]

/-- `_CONTEXT_KEYWORDS`. -/
def context_keywords : List String :=
  ["scope", "emission", "co2", "ghg", "carbon", "tonne", "tco", "ktco", "mtco"]

/-- The first `_UNIT_HINTS` phrase occurring in the (already lowered) context. -/
def first_unit_hint (lowered : String) : Option String :=
  unit_hints.findSome? fun hm => if py_in hm.1 lowered then some hm.2 else none

/-- `_infer_unit` from `backend/domain/utils/verification.py` (identical in
`src/utils/verification.py`): keyword hints are consulted first, then the
explicit token, then raw substrings, then the default `t`. -/
def _infer_unit (context : String) (explicit : Option String) : String :=
  let unit := lower_str (explicit.getD "")
  let lowered := lower_str context
  match first_unit_hint lowered with
  | some mapped => mapped
  | none =>
    if unit = "mt" ∨ unit = "kt" ∨ unit = "t" ∨ unit = "kg" then unit
    else if py_in "kt" lowered then "kt"
    else if py_in "mt" lowered then "mt"
    else if py_in "kg" lowered then "kg"
    else "t"

/-- The multiplier table `{kg: 1, t: 1_000, kt: 1_000_000, mt: 1_000_000_000}`
with the `.get(unit, 1_000)` default. -/
def unit_factor (unit : String) : ℤ :=
  if unit = "kg" then 1
  else if unit = "t" then 1000
  else if unit = "kt" then 1000000
  else if unit = "mt" then 1000000000
  else 1000

/-- `value = int(round(number * factor))`. -/
def convert_value (number : Frac) (unit : String) : ℤ :=
  Frac.roundHalfEven (Frac.mulInt number (unit_factor unit))

/-- Integer value of a digit run. -/
def digits_to_nat (l : List Char) : ℕ :=
  l.foldl (fun acc c => acc * 10 + (c.toNat - 48)) 0

/-- Python `float(...)` restricted to the decimal shapes `group(1)` can
produce after separator removal (`digits`, `digits.digits`, optional sign);
anything else fails like Python's `ValueError`. -/
def parse_unsigned (l : List Char) : Option Frac :=
  let d := List.span Char.isDigit l
  if d.1.isEmpty then none
  else match d.2 with
  | [] => some ⟨digits_to_nat d.1, 1⟩
  | '.' :: fr =>
    let f := List.span Char.isDigit fr
    if f.1.isEmpty ∨ ¬ f.2.isEmpty then none
    else some ⟨(digits_to_nat d.1 : ℤ) * (10 ^ f.1.length : ℤ) + (digits_to_nat f.1 : ℤ),
               (10 ^ f.1.length : ℤ)⟩
  | _ => none

/-- Python `float(...)` with optional leading minus. -/
def parse_decimal : List Char → Option Frac
  | '-' :: rest => (parse_unsigned rest).map fun f => ⟨-f.num, f.den⟩
  | l => parse_unsigned l

/-- `raw_value.replace(",", "").replace(" ", "")`. -/
def cleaned (s : String) : List Char :=
  s.data.filter fun c => !(c == ',' || c == ' ')

/-! ### Candidate value extraction (`_extract_numeric_value`, backend) -/

/-- One scored candidate, mirroring the Python comparison tuple
`(priority, abs(offset), number, context, raw_value, near_unit)`. -/
structure Candidate where
  priority : ℤ
  absOffset : ℕ
  number : Frac
  context : String
  raw : String
  nearUnit : Bool
  deriving Repr

/-- Python `<` on strings (lexicographic by code point). -/
def str_lt_list : List Char → List Char → Bool
  | [], [] => false
  | [], _ :: _ => true
  | _ :: _, [] => false
  | a :: xs, b :: ys =>
    if a.toNat < b.toNat then true
    else if b.toNat < a.toNat then false
    else str_lt_list xs ys

def pystr_lt (a b : String) : Bool := str_lt_list a.data b.data

/-- Python tuple comparison `candidate > best_candidate`. -/
def cand_gt (c b : Candidate) : Bool :=
  if c.priority ≠ b.priority then decide (b.priority < c.priority)
  else if c.absOffset ≠ b.absOffset then decide (b.absOffset < c.absOffset)
  else if ¬ (Frac.beq c.number b.number = true) then Frac.lt b.number c.number
  else if c.context ≠ b.context then pystr_lt b.context c.context
  else if c.raw ≠ b.raw then pystr_lt b.raw c.raw
  else (c.nearUnit && !b.nearUnit)

def near_tokens : List String := ["mt", "kt", "tco", "t ", "kg"]

def unit_ctx_tokens : List String := ["tco", "tonne", "ton ", "co2", "ghg", "kt", "mt"]

/-- Python `line[a:b]` for `a ≤ b` (indices clamped to the string). -/
def slice_str (s : String) (a b : Nat) : String := ⟨(s.data.drop a).take (b - a)⟩

/-- One iteration of the backend candidate loop body.  Returns the candidate
tuple plus the associated `(value, unit_present)` pair, or `none` where the
Python loop hits a `continue`. -/
def mk_candidate (lines : List String) (base : Nat) (line : String) (offAbs : Nat)
    (m : ValueMatch) : Option (Candidate × ℤ × Bool) :=
  let raw := m.group1
  if raw = "" then none else
  match parse_decimal (cleaned raw) with
  | none => none
  | some number =>
    let context := (lines.getD base "") ++ " " ++ line
    let unit := _infer_unit context m.group2
    let value := convert_value number unit
    if value ≤ 0 then none else
    let lowered_segment := lower_str (slice_str line (m.mstart - 6) (m.stop + 12))
    let near_unit := m.group2.isSome || near_tokens.any fun t => py_in t lowered_segment
    let unit_present := m.group2.isSome ||
      unit_ctx_tokens.any fun t => py_in t (lower_str context)
    if !unit_present then none else
    let priority : ℤ :=
      (if near_unit then 20 else 0) + (if m.group2.isSome then 5 else 0)
      + (if raw.data.contains '.' then 2 else 0)
      + (if (!(Frac.beq number (Frac.ofInt 0))) && Frac.le (Frac.ofInt 1000) number
            && Frac.le number (Frac.ofInt 2100) && !(raw.data.contains '.')
            && !near_unit
         then -10 else 0)
      - (offAbs : ℤ) * 2 - ((m.mstart / 10 : ℕ) : ℤ)
    some ({ priority := priority, absOffset := offAbs, number := number,
            context := context, raw := raw, nearUnit := near_unit }, value, unit_present)

/-- One step of the best-candidate fold: keep `best` unless this match yields
a candidate that is new or strictly greater in the Python tuple order. -/
def best_cand_step (lines : List String) (base : Nat) (line : String) (offAbs : Nat)
    (best : Option (Candidate × ℤ × Bool)) (m : ValueMatch) :
    Option (Candidate × ℤ × Bool) :=
  match mk_candidate lines base line offAbs m with
  | none => best
  | some cand =>
    match best with
    | none => some cand
    | some b => if cand_gt cand.1 b.1 then some cand else best

/-- The best candidate of one line (Python inner loop over `matches`). -/
def line_best (lines : List String) (base : Nat) (line : String) (offAbs : Nat) :
    Option (Candidate × ℤ × Bool) :=
  (value_finditer line).foldl (best_cand_step lines base line offAbs) none

structure ExtractResult where
  value : ℤ
  context : String
  distance : ℕ
  unit_present : Bool
  deriving Repr

/-- The fixed offset search order `[0, 1, -1, 2, -2, 3]`. -/
def search_order : List ℤ := [0, 1, -1, 2, -2, 3]

def extract_go (lines : List String) (base : Nat) : List ℤ → Option ExtractResult
  | [] => none
  | off :: rest =>
    let idx : ℤ := (base : ℤ) + off
    if idx < 0 ∨ (lines.length : ℤ) ≤ idx then extract_go lines base rest
    else
      match line_best lines base (lines.getD idx.toNat "") off.natAbs with
      | none => extract_go lines base rest
      | some c => some ⟨c.2.1, c.1.context, off.natAbs, c.2.2⟩

/-- `_extract_numeric_value` from `backend/domain/utils/verification.py`
(`none` models the Python `(None, None, 6, False)` miss). -/
def _extract_numeric_value (lines : List String) (base : Nat) : Option ExtractResult :=
  extract_go lines base search_order

/-! ### Scope location and the deterministic extraction method -/

/-- One pattern comparison inside `_find_scope_candidate`: keep the best
`(index, score)` pair, updating only on a strictly better score. -/
def scope_score_step (lowered : String) (idx : Nat) (a : Option Nat × Frac)
    (p : String) : Option Nat × Frac :=
  if Frac.lt a.2 (fuzz_score lowered p) then (some idx, fuzz_score lowered p) else a

def find_scope_go (patterns : List String) :
    List (Nat × String) → Option Nat × Frac → Option Nat × Frac
  | [], acc => acc
  | (idx, line) :: rest, acc =>
    find_scope_go patterns rest
      (patterns.foldl (scope_score_step (lower_str line) idx) acc)

/-- `_find_scope_candidate`: the line with the best partial fuzzy score over
all label phrases (strict improvement, so the first line wins ties). -/
def _find_scope_candidate (lines : List String) (patterns : List String) :
    Option Nat × Frac :=
  find_scope_go patterns lines.enum (none, Frac.ofInt 0)

/-- `_detect_scope2_method`. -/
def _detect_scope2_method (context : Option String) : Option String :=
  match context with
  | none => none
  | some ctx =>
    if ctx = "" then none
    else method_hints.findSome? fun hm =>
      if py_in hm.1 (lower_str ctx) then some hm.2 else none

/-- `ParsedResult` (the pydantic model, confidence as exact fraction). -/
structure ParsedResult where
  scope_1 : Option ℤ
  scope_1_context : Option String := none
  scope_2 : Option ℤ
  scope_2_context : Option String := none
  scope_3 : Option ℤ := none
  scope_3_context : Option String := none
  qualifiers : Option String := none
  scope_2_method : Option String := none
  confidence : Frac := Frac.ofInt 0
  deriving Repr

/-- The non-blank stripped lines of the snippet. -/
def parse_lines (snippet : String) : List String :=
  ((split_lines snippet).map py_strip).filter fun l => l ≠ ""

/-- One `_SCOPE_PATTERNS` iteration of `parse_data_fuzzy`: locate, extract,
filter, and return `(value, context, adjusted_score)` — `none` when the
Python loop leaves the scope key out of `values`. -/
def scope_slot (lines : List String) (patterns : List String) :
    Option (ℤ × String × Frac) :=
  match _find_scope_candidate lines patterns with
  | (none, _) => none
  | (some idx, score) =>
    if Frac.lt score (Frac.ofInt 60) then none
    else match _extract_numeric_value lines idx with
    | none => none
    | some r =>
      if r.context = "" then none
      else if !r.unit_present then none
      else
        let normalized := lower_str r.context
        if !(context_keywords.any fun k => py_in k normalized) then none
        else some (r.value, r.context,
          Frac.maxF (Frac.subInt score ((r.distance : ℤ) * 5)) (Frac.ofInt 0))

/-- `parse_data_fuzzy` from `backend/domain/utils/verification.py`:
the deterministic extraction method. -/
def parse_data_fuzzy (snippet_text : String) : Option ParsedResult :=
  let lines := parse_lines snippet_text
  if lines.isEmpty then none
  else
    let s1 := scope_slot lines scope1_patterns
    let s2 := scope_slot lines scope2_patterns
    let s3 := scope_slot lines scope3_patterns
    match s1, s2 with
    | some r1, some r2 =>
      let m := _detect_scope2_method (some r2.2.1)
      let floorScore := Frac.minF r1.2.2 r2.2.2
      let confidence := Frac.maxF ⟨1, 10⟩ (Frac.minF ⟨19, 20⟩ (Frac.div100 floorScore))
      some { scope_1 := some r1.1, scope_1_context := some r1.2.1,
             scope_2 := some r2.1, scope_2_context := some r2.2.1,
             scope_3 := s3.map fun t => t.1,
             scope_3_context := s3.map fun t => t.2.1,
             qualifiers := none, scope_2_method := m, confidence := confidence }
    | _, _ => none

/-! ### The company data model

Mirrors `backend/domain/models/*` (which re-exports the pydantic models also
found under `src/models/*`).  Floats are `Frac`, datetimes an abstract `Nat`.
The JSON-coercion (`mode="before"`) validators are identities on already-typed
data and are omitted; the `Scope2Emissions.method` validator, which can
*reject* a value, is modelled explicitly (`normalise_method`). -/

structure ScopeValue where
  value : ℤ
  confidence : Option Frac := none
  context : Option String := none
  deriving DecidableEq, Repr

structure Scope2Emissions where
  value : ℤ
  confidence : Option Frac := none
  context : Option String := none
  method : Option String := none
  deriving DecidableEq, Repr

structure Scope3Emissions where
  value : ℤ
  confidence : Option Frac := none
  context : Option String := none
  qualifiers : Option String := none
  deriving DecidableEq, Repr

structure EmissionsData where
  scope_1 : Option ScopeValue := none
  scope_2 : Option Scope2Emissions := none
  scope_3 : Option Scope3Emissions := none
  deriving DecidableEq, Repr

structure VerificationRecord where
  status : String := "pending"
  reviewer : Option String := none
  verified_at : Option Nat := none
  scope_1_override : Option ℤ := none
  scope_2_override : Option ℤ := none
  scope_3_override : Option ℤ := none
  notes : Option String := none
  deriving DecidableEq, Repr

structure AnalysisRecord where
  method : String
  snippet_label : String
  snippet_path : Option String := none
  snippet_pages : List ℤ := []
  confidence : Frac := Frac.ofInt 0
  deriving DecidableEq, Repr

structure Identity where
  name : String
  ticker : String
  deriving DecidableEq, Repr

structure SearchRecord where
  url : String
  title : String
  filename : String
  year : Option String := none
  doc_type : Option String := none
  deriving DecidableEq, Repr

structure DownloadRecord where
  pdf_path : String
  deriving DecidableEq, Repr

structure ExtractionRecord where
  text_path : String
  text_token_count : ℤ := 0
  snippet_page_count : ℤ := 0
  table_path : Option String := none
  table_count : ℤ := 0
  table_token_count : ℤ := 0
  text_pages : List ℤ := []
  table_pages : List ℤ := []
  deriving DecidableEq, Repr

/-- The `Annotations` model restricted to the fields the pipeline operations
touch (`ANNOTATION_RESET_FIELDS`); the three derived-metric fields no embedded
operation reads or writes are omitted. -/
structure Annotations where
  anzsic_division : Option String := none
  anzsic_confidence : Option Frac := none
  anzsic_context : Option String := none
  anzsic_source : Option String := none
  anzsic_local_division : Option String := none
  anzsic_local_confidence : Option Frac := none
  anzsic_local_context : Option String := none
  anzsic_agreement : Option Bool := none
  profitability_year : Option ℤ := none
  profitability_revenue_mm_aud : Option Frac := none
  profitability_ebitda_mm_aud : Option Frac := none
  profitability_net_income_mm_aud : Option Frac := none
  profitability_total_assets_mm_aud : Option Frac := none
  size_employee_count : Option ℤ := none
  reporting_group : Option String := none
  rbics_sector : Option String := none
  rbics_sub_sector : Option String := none
  rbics_industry_group : Option String := none
  rbics_industry : Option String := none
  company_country : Option String := none
  company_region : Option String := none
  company_state : Option String := none
  net_zero_claims : Option ℤ := none
  deriving DecidableEq, Repr

structure Company where
  identity : Identity
  emissions : EmissionsData := {}
  annotations : Annotations := {}
  search_record : Option SearchRecord := none
  download_record : Option DownloadRecord := none
  extraction_record : Option ExtractionRecord := none
  analysis_record : Option AnalysisRecord := none
  verification : VerificationRecord := {}
  deriving DecidableEq, Repr

/-! ### The `Scope2Emissions.method` validator -/

/-- Python `re.sub(r"\s+", " ", s)`: collapse whitespace runs to one space. -/
def collapse_ws_go : List Char → Bool → List Char
  | [], _ => []
  | c :: rest, prevSpace =>
    if py_isspace c then
      if prevSpace then collapse_ws_go rest true
      else ' ' :: collapse_ws_go rest true
    else c :: collapse_ws_go rest false

/-- Python `str.endswith(suffix)`. -/
def ends_with (suffix s : String) : Bool :=
  starts_exact suffix.data.reverse s.data.reverse

def method_mapping : List (String × String) :=
  [("market", "market"), ("location", "location"), ("locational", "location"),
   ("unsure", "unsure"), ("unknown", "unsure"), ("not specified", "unsure"),
   ("not applicable", "unsure"), ("not reported", "unsure"), ("n/a", "unsure")]

def uncertain_keywords : List String :=
  ["unknown", "unsure", "uncertain", "n/a", "not specified"]

/-- `Scope2Emissions._normalise_method` (`src/models/emissions.py`): the
pydantic field validator run whenever a `Scope2Emissions` is constructed;
`error` models the raised `ValueError`. -/
def normalise_method : Option String → Except String (Option String)
  | none => .ok none
  | some v =>
    let text := py_strip v
    if text = "" then .ok none
    else
      let replaced := (lower_str text).data.map fun c =>
        if c = '-' ∨ c = '_' then ' ' else c
      let condensed0 := py_strip ⟨collapse_ws_go replaced false⟩
      let condensed :=
        if ends_with " based" condensed0 then
          py_strip ⟨condensed0.data.take (condensed0.data.length - 6)⟩
        else condensed0
      match method_mapping.find? fun p => p.1 == condensed with
      | some p => .ok (some p.2)
      | none =>
        let has_market := py_in "market" condensed
        let has_location := py_in "location" condensed || py_in "locational" condensed
        if has_market && has_location then .ok (some "unsure")
        else if has_market then .ok (some "market")
        else if has_location then .ok (some "location")
        else if uncertain_keywords.any fun k => py_in k condensed then .ok (some "unsure")
        else .error "scope_2.method must be one of: market, location, unsure"

/-! ### Record merge (`update_company_emissions`, backend) -/

/-- The re-parse of a supporting excerpt inside `_adjust_value_from_context`:
first `_VALUE_RE` match, float parse, unit inference and conversion; `none`
where the Python code keeps the raw value (no match, parse failure, or a
non-positive expected value). -/
def _adjust_expected (context : String) : Option ℤ :=
  match value_search context with
  | none => none
  | some m =>
    if m.group1 = "" then none
    else match parse_decimal (cleaned m.group1) with
    | none => none
    | some numeric =>
      let unit := _infer_unit context m.group2
      let expected := convert_value numeric unit
      if expected ≤ 0 then none else some expected

/-- `_adjust_value_from_context` from `backend/domain/utils/verification.py`.
(The Python `if raw_value == 0: return expected` line is dead code — the
entry guard already returned for `raw_value <= 0` — and is dropped.) -/
def _adjust_value_from_context (raw_value : Option ℤ) (context : Option String) :
    Option ℤ :=
  match raw_value with
  | none => none
  | some r =>
    if r ≤ 0 then some r
    else match context with
    | none => some r
    | some ctx =>
      if ctx = "" then some r
      else match _adjust_expected ctx with
      | none => some r
      | some expected =>
        if r = expected then some r
        else if Frac.le (Frac.ofInt 10) ⟨expected, r⟩ then some expected
        else if Frac.le (Frac.ofInt |expected - r|)
                  (Frac.maxF (Frac.ofInt 1000) (Frac.div100 (Frac.ofInt expected)))
             then some expected
        else some r

/-- `(new or old or "").strip() or None`. -/
def merged_context (new old : Option String) : Option String :=
  py_truthy_opt (some (py_strip ((py_or_opt new old).getD "")))

/-- `x.strip() if x else None` on an optional string. -/
def strip_if (q : Option String) : Option String :=
  match q with
  | some t => if t = "" then none else some (py_strip t)
  | none => none

/-- `update_company_emissions` from `backend/domain/utils/verification.py`.
`ok (false, c)` models the `return False` paths (the record untouched),
`ok (true, c')` a successful merge, and `error` the pydantic `ValueError`
raised by the `Scope2Emissions.method` validator (in Python this aborts the
caller before any state is persisted, so the partially mutated in-memory
record is discarded).  The `ensure_page_previews` call is a pure filesystem
side effect and is omitted. -/
def update_company_emissions (company : Company) (parsed : ParsedResult)
    (method : String) (snippet_label : String) (snippet_path : Option String)
    (snippet_pages : List ℤ) : Except String (Bool × Company) :=
  match parsed.scope_1, parsed.scope_2 with
  | none, _ => .ok (false, company)
  | some _, none => .ok (false, company)
  | some s1, some s2 =>
    if s1 ≤ 0 ∨ s2 ≤ 0 then .ok (false, company)
    else
      match _adjust_value_from_context (some s1) parsed.scope_1_context,
            _adjust_value_from_context (some s2) parsed.scope_2_context with
      | none, _ => .ok (false, company)
      | some _, none => .ok (false, company)
      | some v1, some v2 =>
        let scope3_value := _adjust_value_from_context parsed.scope_3 parsed.scope_3_context
        let em := company.emissions
        let existing_s1_ctx := em.scope_1.bind fun s => s.context
        let new_s1 : ScopeValue :=
          { value := v1, confidence := some parsed.confidence,
            context := merged_context parsed.scope_1_context existing_s1_ctx }
        let em1 : EmissionsData := { em with scope_1 := some new_s1 }
        let existing_method := em.scope_2.bind fun s => s.method
        match normalise_method (py_or_opt parsed.scope_2_method existing_method) with
        | .error e => .error e
        | .ok scope2_method =>
          let existing_s2_ctx := em.scope_2.bind fun s => s.context
          let new_s2 : Scope2Emissions :=
            { value := v2, method := scope2_method,
              confidence := some parsed.confidence,
              context := merged_context parsed.scope_2_context existing_s2_ctx }
          let em2 : EmissionsData := { em1 with scope_2 := some new_s2 }
          let em3 : EmissionsData :=
            match scope3_value with
            | some v3 =>
              if 0 < v3 then
                let qualifiers := py_or_opt parsed.qualifiers
                  (em.scope_3.bind fun s => s.qualifiers)
                let new_s3 : Scope3Emissions :=
                  { value := v3, qualifiers := strip_if qualifiers,
                    confidence := some parsed.confidence,
                    context := merged_context parsed.scope_3_context
                      (em.scope_3.bind fun s => s.context) }
                { em2 with scope_3 := some new_s3 }
              else match py_truthy_opt parsed.qualifiers, em2.scope_3 with
                | some q, some s3 =>
                  let s3q := { s3 with qualifiers := some (py_strip q) }
                  { em2 with scope_3 := some s3q }
                | _, _ => em2
            | none =>
              match py_truthy_opt parsed.qualifiers, em2.scope_3 with
              | some q, some s3 =>
                let s3q := { s3 with qualifiers := some (py_strip q) }
                { em2 with scope_3 := some s3q }
              | _, _ => em2
          let analysis : AnalysisRecord :=
            { method := method, snippet_label := snippet_label,
              snippet_path := snippet_path, snippet_pages := snippet_pages,
              confidence := parsed.confidence }
          .ok (true,
            { company with
                emissions := em3,
                analysis_record := some analysis,
                verification :=
                  { status := "pending", verified_at := none,
                    scope_1_override := none, scope_2_override := none,
                    scope_3_override := none, notes := none,
                    reviewer := company.verification.reviewer } })

/-! ### Stage dependency graph (`backend/domain/s0_stats.py`) -/

/-- `STAGE_DEPENDENCIES` (a fixed dict; `none` for an unknown key). -/
def STAGE_DEPENDENCIES (s : String) : Option (List String) :=
  if s = "s2" then some ["s2", "s3", "s4", "s5"]
  else if s = "s3" then some ["s3", "s4", "s5"]
  else if s = "s4" then some ["s4", "s5"]
  else if s = "s5" then some ["s5"]
  else if s = "s6" then some ["s6"]
  else none

/-- Worker for `_expand_stages`: ordered closure accumulation with a seen set
(`ordered` is kept reversed while accumulating). -/
def expand_go : List String → List String → List String → Except String (List String)
  | [], ordered, _ => .ok ordered.reverse
  | st :: rest, ordered, seen =>
    match STAGE_DEPENDENCIES (lower_str st) with
    | none => .error ("Unsupported stage " ++ st)
    | some deps =>
      let p := deps.foldl
        (fun (acc : List String × List String) d =>
          if acc.2.contains d then acc else (d :: acc.1, d :: acc.2))
        (ordered, seen)
      expand_go rest p.1 p.2

/-- `_expand_stages`: transitive closure of the requested stages, in first-seen
order; `error` models the raised `ValueError` for an unsupported stage. -/
def _expand_stages (stages : List String) : Except String (List String) :=
  expand_go stages [] []

/-- `_reset_search`. -/
def _reset_search (c : Company) : Bool × Company :=
  if c.search_record ≠ none then (true, { c with search_record := none })
  else (false, c)

/-- `_reset_download`. -/
def _reset_download (c : Company) : Bool × Company :=
  if c.download_record ≠ none then (true, { c with download_record := none })
  else (false, c)

/-- `_reset_extraction`. -/
def _reset_extraction (c : Company) : Bool × Company :=
  if c.extraction_record ≠ none then (true, { c with extraction_record := none })
  else (false, c)

/-- `_reset_verification`: every listed field back to `None` and the status to
`pending`; the defensive `isinstance` branch is vacuous in the typed model.
The per-field loop is collapsed into one record update plus the disjunction of
the per-field change tests, which computes the same state and flag. -/
def _reset_verification (c : Company) : Bool × Company :=
  let v := c.verification
  let changed := v.verified_at ≠ none ∨ v.reviewer ≠ none ∨
    v.scope_1_override ≠ none ∨ v.scope_2_override ≠ none ∨
    v.scope_3_override ≠ none ∨ v.notes ≠ none ∨ v.status ≠ "pending"
  (changed,
    { c with verification :=
        { status := "pending", reviewer := none, verified_at := none,
          scope_1_override := none, scope_2_override := none,
          scope_3_override := none, notes := none } })

/-- `_reset_analysis`: clear the analysis record, empty the emissions (the
`isinstance` test is vacuous in the typed model) and reset verification. -/
def _reset_analysis (c : Company) : Bool × Company :=
  let p1 : Bool × Company :=
    if c.analysis_record ≠ none then (true, { c with analysis_record := none })
    else (false, c)
  let p2 : Bool × Company :=
    if p1.2.emissions.scope_1 ≠ none ∨ p1.2.emissions.scope_2 ≠ none ∨
       p1.2.emissions.scope_3 ≠ none then
      (true, { p1.2 with emissions := {} })
    else (false, p1.2)
  let p3 := _reset_verification p2.2
  (p1.1 || p2.1 || p3.1, p3.2)

/-- `_reset_annotations`: every `ANNOTATION_RESET_FIELDS` field back to `None`.
As with `_reset_verification`, the loop is collapsed into one update. -/
def _reset_annotations (c : Company) : Bool × Company :=
  let a := c.annotations
  let changed := a.anzsic_division ≠ none ∨ a.anzsic_confidence ≠ none ∨
    a.anzsic_context ≠ none ∨ a.anzsic_source ≠ none ∨
    a.anzsic_local_division ≠ none ∨ a.anzsic_local_confidence ≠ none ∨
    a.anzsic_local_context ≠ none ∨ a.anzsic_agreement ≠ none ∨
    a.profitability_year ≠ none ∨ a.profitability_revenue_mm_aud ≠ none ∨
    a.profitability_ebitda_mm_aud ≠ none ∨ a.profitability_net_income_mm_aud ≠ none ∨
    a.profitability_total_assets_mm_aud ≠ none ∨ a.size_employee_count ≠ none ∨
    a.reporting_group ≠ none ∨ a.rbics_sector ≠ none ∨ a.rbics_sub_sector ≠ none ∨
    a.rbics_industry_group ≠ none ∨ a.rbics_industry ≠ none ∨
    a.company_country ≠ none ∨ a.company_region ≠ none ∨ a.company_state ≠ none ∨
    a.net_zero_claims ≠ none
  (changed, { c with annotations := {} })

/-- `_apply_stage_reset` (the unknown-stage `ValueError` is unreachable after
`_expand_stages` and modelled as a no-op). -/
def _apply_stage_reset (c : Company) (stage : String) : Bool × Company :=
  if stage = "s2" then _reset_search c
  else if stage = "s3" then _reset_download c
  else if stage = "s4" then _reset_extraction c
  else if stage = "s5" then _reset_analysis c
  else if stage = "s6" then _reset_annotations c
  else (false, c)

/-- The clearing loop of `reset_company_stages` over an expanded closure. -/
def reset_fold (c : Company) (ordered : List String) : Bool × Company :=
  ordered.foldl
    (fun acc st =>
      let r := _apply_stage_reset acc.2 st
      (acc.1 || r.1, r.2))
    (false, c)

/-- `reset_company_stages`: expand the requested stages to their dependency
closure first, then clear each stage once. -/
def reset_company_stages (c : Company) (stages : List String) :
    Except String (Bool × Company) :=
  match _expand_stages stages with
  | .error e => .error e
  | .ok ordered => .ok (reset_fold c ordered)

/-! ### Review workflow services (`backend/app/services/verification.py`) -/

/-- `apply_accept`: unconditionally marks the record accepted. -/
def apply_accept (company : Company) (notes reviewer : Option String) (now : Nat) :
    Company :=
  let v := company.verification
  { company with verification :=
      { v with status := "accepted", notes := py_truthy_opt notes,
               reviewer := py_or_opt reviewer v.reviewer,
               verified_at := some now } }

/-- `apply_reject`, from the first state mutation on (the preceding URL
validation, base64 decoding and file writes are external I/O producing the
already-validated `new_search` / `new_download` records; the returned display
message is dropped).  `error` models the raised `HTTPException` when neither
a replacement URL nor an upload was provided. -/
def apply_reject (company : Company) (new_search : Option SearchRecord)
    (new_download : Option DownloadRecord) (notes reviewer : Option String)
    (now : Nat) : Except String Company :=
  let stages_requested :=
    (if new_search.isSome then ["s2"] else []) ++
    (if new_download.isSome && !new_search.isSome then ["s3"] else [])
  if stages_requested.isEmpty then
    .error "Provide a replacement PDF URL or upload a new PDF before rejecting."
  else match reset_company_stages company stages_requested with
  | .error e => .error e
  | .ok r =>
    let c1 := r.2
    let c2 := match new_search with
      | some sr => { c1 with search_record := some sr }
      | none => c1
    let c3 := match new_download with
      | some dr => { c2 with download_record := some dr }
      | none => c2
    let v := c3.verification
    .ok { c3 with verification :=
        { v with status := "rejected", verified_at := some now,
                 notes := py_truthy_opt notes,
                 reviewer := py_or_opt reviewer v.reviewer,
                 scope_1_override := none, scope_2_override := none,
                 scope_3_override := none } }

/-- The tail of `apply_manual_override` after the scope-1/scope-2 updates:
scope-3 handling, the `manual-override` analysis record, and the verification
mutation recording acceptance and the override values. -/
def override_rest (company : Company) (em1 : EmissionsData) (scope3 : Option ℤ)
    (scope1 scope2 : ℤ) (notes reviewer : Option String) (now : Nat) : Company :=
  let em2 : EmissionsData :=
    match scope3 with
    | some v3 =>
      match em1.scope_3 with
      | none =>
        let s3 : Scope3Emissions := { value := v3, confidence := some (Frac.ofInt 1) }
        { em1 with scope_3 := some s3 }
      | some s3 =>
        let s3v := { s3 with value := v3, confidence := some (Frac.ofInt 1) }
        { em1 with scope_3 := some s3v }
    | none =>
      match em1.scope_3 with
      | some s3 =>
        -- `confidence = confidence or 1.0` (None and 0.0 are falsy)
        let conf := match s3.confidence with
          | none => some (Frac.ofInt 1)
          | some f => if Frac.beq f (Frac.ofInt 0) then some (Frac.ofInt 1) else some f
        { em1 with scope_3 := some { s3 with confidence := conf } }
      | none => em1
  let prev := company.analysis_record
  let analysis : AnalysisRecord :=
    { method := "manual-override",
      snippet_label := (prev.map fun r => r.snippet_label).getD "manual",
      snippet_path := prev.bind fun r => r.snippet_path,
      snippet_pages := (prev.map fun r => r.snippet_pages).getD [],
      confidence := Frac.ofInt 1 }
  let v := company.verification
  { company with
      emissions := em2,
      analysis_record := some analysis,
      verification :=
        { v with status := "accepted", verified_at := some now,
                 scope_1_override := some scope1, scope_2_override := some scope2,
                 scope_3_override := scope3, notes := py_truthy_opt notes,
                 reviewer := py_or_opt reviewer v.reviewer } }

/-- `apply_manual_override`.  `error` models the pydantic `ValueError` raised
by the `Scope2Emissions.method` validator when a fresh scope-2 entry is
constructed with `method="manual"` (which the validator rejects). -/
def apply_manual_override (company : Company) (scope1 scope2 : ℤ)
    (scope3 : Option ℤ) (notes reviewer : Option String) (now : Nat) :
    Except String Company :=
  let em := company.emissions
  let em1 : EmissionsData :=
    match em.scope_1 with
    | none =>
      let sv : ScopeValue := { value := scope1, confidence := some (Frac.ofInt 1) }
      { em with scope_1 := some sv }
    | some sv =>
      let sv1 := { sv with value := scope1, confidence := some (Frac.ofInt 1) }
      { em with scope_1 := some sv1 }
  match em.scope_2 with
  | none =>
    match normalise_method (some "manual") with
    | .error e => .error e
    | .ok m =>
      -- unreachable: the validator rejects "manual"; kept for faithfulness
      let s2 : Scope2Emissions :=
        { value := scope2, confidence := some (Frac.ofInt 1), method := m }
      .ok (override_rest company { em1 with scope_2 := some s2 } scope3 scope1 scope2
        notes reviewer now)
  | some s2 =>
    let s2v : Scope2Emissions :=
      { s2 with value := scope2, confidence := some (Frac.ofInt 1),
                method := py_or_opt s2.method (some "manual") }
    .ok (override_rest company { em1 with scope_2 := some s2v } scope3 scope1 scope2
      notes reviewer now)

/-! ### Concrete companies, parsed results and end states used by the claim
theorems and witnesses below -/

/-- The scenario-A snippet. -/
def scenarioA : String :=
  "Total Scope 1 emissions: 1,234 tCO2e\nTotal Scope 2 emissions (market-based): 500 tCO2e"

/-- The `ParsedResult` the deterministic method produces on scenario A. -/
def scenarioA_result : ParsedResult :=
  { scope_1 := some 1234000,
    scope_1_context := some
      "Total Scope 1 emissions: 1,234 tCO2e Total Scope 1 emissions: 1,234 tCO2e",
    scope_2 := some 500000,
    scope_2_context := some
      "Total Scope 2 emissions (market-based): 500 tCO2e Total Scope 2 emissions (market-based): 500 tCO2e",
    scope_3 := some 1234000,
    scope_3_context := some
      "Total Scope 1 emissions: 1,234 tCO2e Total Scope 1 emissions: 1,234 tCO2e",
    qualifiers := none,
    scope_2_method := some "market",
    confidence := ⟨19, 20⟩ }

def c9_company : Company := { identity := { name := "Acme", ticker := "ACM" } }

def c9_parsed : ParsedResult :=
  { scope_1 := some 2, scope_1_context := some "5000 tCO2e scope",
    scope_2 := some 7, confidence := ⟨1, 2⟩ }

def c9_merged : Company :=
  match update_company_emissions c9_company c9_parsed "python" "text" none [] with
  | .ok p => p.2
  | .error _ => c9_company

def c2_company : Company :=
  { identity := { name := "Acme", ticker := "ACM" },
    verification :=
      { status := "accepted", reviewer := some "rev", verified_at := some 7,
        scope_1_override := some 1, scope_2_override := some 2,
        scope_3_override := some 3, notes := some "ok" } }

def c2_parsed : ParsedResult :=
  { scope_1 := some 5, scope_2 := some 7, confidence := ⟨1, 2⟩ }

def c2_merged : Company :=
  match update_company_emissions c2_company c2_parsed "python" "text" none [] with
  | .ok p => p.2
  | .error _ => c2_company

def c8_company : Company := { identity := { name := "Beta", ticker := "BET" } }

def c8_parsed : ParsedResult := { scope_1 := some 0, scope_2 := some 5 }

def c1_company : Company := { identity := { name := "NoData", ticker := "ND" } }

def c1w_company : Company :=
  { identity := { name := "W", ticker := "W" },
    emissions := { scope_2 := some { value := 5, method := some "market" } } }

def c1w_parsed : ParsedResult := { scope_1 := some 3, scope_2 := some 4 }

def c1w_merged : Company :=
  match update_company_emissions c1_company c1w_parsed "python" "text" none [] with
  | .ok p => p.2
  | .error _ => c1_company

def c1w_overridden : Company :=
  match apply_manual_override c1w_company 11 22 none none none 9 with
  | .ok c => c
  | .error _ => c1w_company

def c1w_search : SearchRecord :=
  { url := "http://x/a.pdf", title := "t", filename := "a.pdf" }

def c1w_rejected : Company :=
  match apply_reject c1_company (some c1w_search) none none none 3 with
  | .ok c => c
  | .error _ => c1_company

/-- The end state of invalidating `s3` (hence `s4`, `s5`). -/
def s3_clear (c : Company) : Company :=
  { c with download_record := none, extraction_record := none,
           analysis_record := none, emissions := {}, verification := {} }

/-- The end state of invalidating `s2` (hence `s3`, `s4`, `s5`). -/
def s2_clear (c : Company) : Company :=
  { c with search_record := none, download_record := none,
           extraction_record := none, analysis_record := none,
           emissions := {}, verification := {} }

def c5_company : Company :=
  { identity := { name := "G", ticker := "G" },
    download_record := some { pdf_path := "x.pdf" } }

/-! ### Bridging `Frac` comparisons to the rational order -/

namespace Frac

theorem toRat_ofInt (n : ℤ) : (Frac.ofInt n).toRat = n := by
  simp [toRat, ofInt]

theorem le_iff {a b : Frac} (ha : 0 < a.den) (hb : 0 < b.den) :
    le a b = true ↔ a.toRat ≤ b.toRat := by
  have ha' : (0 : ℚ) < a.den := by exact_mod_cast ha
  have hb' : (0 : ℚ) < b.den := by exact_mod_cast hb
  rw [le, decide_eq_true_eq, toRat, toRat, div_le_div_iff ha' hb']
  constructor
  · intro h; exact_mod_cast h
  · intro h; exact_mod_cast h

theorem lt_iff {a b : Frac} (ha : 0 < a.den) (hb : 0 < b.den) :
    lt a b = true ↔ a.toRat < b.toRat := by
  have ha' : (0 : ℚ) < a.den := by exact_mod_cast ha
  have hb' : (0 : ℚ) < b.den := by exact_mod_cast hb
  rw [lt, decide_eq_true_eq, toRat, toRat, div_lt_div_iff ha' hb']
  constructor
  · intro h; exact_mod_cast h
  · intro h; exact_mod_cast h

theorem toRat_maxF {a b : Frac} (ha : 0 < a.den) (hb : 0 < b.den) :
    (maxF a b).toRat = max a.toRat b.toRat := by
  rw [maxF]
  by_cases hab : lt a b = true
  · rw [if_pos hab]
    exact (max_eq_right ((lt_iff ha hb).mp hab).le).symm
  · rw [if_neg hab]
    have hnot : ¬ a.toRat < b.toRat := fun h => hab ((lt_iff ha hb).mpr h)
    exact (max_eq_left (not_lt.mp hnot)).symm

theorem toRat_div100 {a : Frac} : (div100 a).toRat = a.toRat / 100 := by
  simp [div100, toRat, div_div]

theorem den_maxF {a b : Frac} (ha : 0 < a.den) (hb : 0 < b.den) :
    0 < (maxF a b).den := by
  rw [maxF]; split <;> assumption

end Frac

/-- `indel_sim` always yields a positive denominator. -/
theorem indel_sim_den_pos (xs ys : List Char) : 0 < (indel_sim xs ys).den := by
  rw [indel_sim]
  split
  · exact one_pos
  · rename_i h
    have hpos : 0 < xs.length + ys.length := Nat.pos_of_ne_zero h
    show (0 : ℤ) < (xs.length : ℤ) + (ys.length : ℤ)
    omega

/-- `score_impl` always yields a positive denominator. -/
theorem score_impl_den_pos (s1 s2 : List Char) : 0 < (score_impl s1 s2).den := by
  rw [score_impl]
  generalize (_ ++ _ ++ _ : List (List Char)) = ws
  induction ws using List.reverseRecOn with
  | nil => simp [Frac.ofInt]
  | append_singleton ws w ih =>
    rw [List.foldl_append, List.foldl_cons, List.foldl_nil]
    exact Frac.den_maxF ih (indel_sim_den_pos s1 w)

theorem fuzz_score_dir_den_pos (sh lo : List Char) : 0 < (fuzz_score_dir sh lo).den := by
  rw [fuzz_score_dir]
  split
  · exact Frac.den_maxF (score_impl_den_pos _ _) (score_impl_den_pos _ _)
  · exact score_impl_den_pos _ _

/-- `fuzz_score` always yields a positive denominator, so its comparisons
agree with the rational order. -/
theorem fuzz_score_den_pos (a b : String) : 0 < (fuzz_score a b).den := by
  rw [fuzz_score]
  split
  · exact one_pos
  · split
    · exact fuzz_score_dir_den_pos _ _
    · exact fuzz_score_dir_den_pos _ _

/-! ### Properties of `roundHalfEven` -/

/-- Floor division is monotone across different positive denominators. -/
theorem ediv_mono_cross {n1 d1 n2 d2 : ℤ} (hd1 : 0 < d1) (hd2 : 0 < d2)
    (h : n1 * d2 ≤ n2 * d1) : n1 / d1 ≤ n2 / d2 := by
  have h1 := Int.ediv_add_emod n1 d1
  have h2 := Int.ediv_add_emod n2 d2
  have r1nn := Int.emod_nonneg n1 (ne_of_gt hd1)
  have r1lt := Int.emod_lt_of_pos n1 hd1
  have r2nn := Int.emod_nonneg n2 (ne_of_gt hd2)
  have r2lt := Int.emod_lt_of_pos n2 hd2
  by_contra hcon
  push_neg at hcon
  have hstep : n2 / d2 + 1 ≤ n1 / d1 := hcon
  nlinarith [mul_pos hd1 hd2, mul_lt_mul_of_pos_right r2lt hd1,
    mul_nonneg r1nn hd2.le,
    mul_le_mul_of_nonneg_right hstep (mul_pos hd1 hd2).le]

/-- Restate `roundHalfEven` through `%` (for a positive denominator). -/
theorem roundHalfEven_emod (a : Frac) (hd : 0 < a.den) :
    a.roundHalfEven =
      (if 2 * (a.num % a.den) < a.den then a.num / a.den
       else if a.den < 2 * (a.num % a.den) then a.num / a.den + 1
       else if (a.num / a.den) % 2 = 0 then a.num / a.den
       else a.num / a.den + 1) := by
  rw [Frac.roundHalfEven, Int.fdiv_eq_ediv _ hd.le]
  have hrem : a.num - a.num / a.den * a.den = a.num % a.den := by
    rw [Int.emod_def]; ring
  rw [hrem]

/-- The branch comparison underlying monotonicity of half-even rounding at
equal floors. -/
theorem round_branch_mono {f r1 d1 r2 d2 : ℤ} (hd1 : 0 < d1) (hd2 : 0 < d2)
    (hr1 : 0 ≤ r1) (hb1 : r1 < d1) (hr2 : 0 ≤ r2) (hb2 : r2 < d2)
    (hrr : r1 * d2 ≤ r2 * d1) :
    (if 2 * r1 < d1 then f else if d1 < 2 * r1 then f + 1
     else if f % 2 = 0 then f else f + 1) ≤
    (if 2 * r2 < d2 then f else if d2 < 2 * r2 then f + 1
     else if f % 2 = 0 then f else f + 1) := by
  split_ifs <;> try omega
  all_goals nlinarith [mul_pos hd1 hd2]

/-- `roundHalfEven` is monotone in the rational value. -/
theorem roundHalfEven_mono {a b : Frac} (ha : 0 < a.den) (hb : 0 < b.den)
    (hcross : a.num * b.den ≤ b.num * a.den) :
    a.roundHalfEven ≤ b.roundHalfEven := by
  rw [roundHalfEven_emod a ha, roundHalfEven_emod b hb]
  have h1 := Int.ediv_add_emod a.num a.den
  have h2 := Int.ediv_add_emod b.num b.den
  have r1nn := Int.emod_nonneg a.num (ne_of_gt ha)
  have r1lt := Int.emod_lt_of_pos a.num ha
  have r2nn := Int.emod_nonneg b.num (ne_of_gt hb)
  have r2lt := Int.emod_lt_of_pos b.num hb
  have hf : a.num / a.den ≤ b.num / b.den := ediv_mono_cross ha hb hcross
  rcases eq_or_lt_of_le hf with heq | hlt
  · rw [← heq]
    apply round_branch_mono ha hb r1nn r1lt r2nn r2lt
    have ha' : a.num * b.den =
        a.den * (a.num / a.den) * b.den + a.num % a.den * b.den := by
      conv_lhs => rw [← h1]
      ring
    have hb' : b.num * a.den =
        b.den * (b.num / b.den) * a.den + b.num % b.den * a.den := by
      conv_lhs => rw [← h2]
      ring
    rw [heq] at ha'
    nlinarith [hcross, ha', hb']
  · have hL : (if 2 * (a.num % a.den) < a.den then a.num / a.den
        else if a.den < 2 * (a.num % a.den) then a.num / a.den + 1
        else if (a.num / a.den) % 2 = 0 then a.num / a.den
        else a.num / a.den + 1) ≤ a.num / a.den + 1 := by
      split_ifs <;> omega
    have hR : b.num / b.den ≤ (if 2 * (b.num % b.den) < b.den then b.num / b.den
        else if b.den < 2 * (b.num % b.den) then b.num / b.den + 1
        else if (b.num / b.den) % 2 = 0 then b.num / b.den
        else b.num / b.den + 1) := by
      split_ifs <;> omega
    omega

/-- Half-even rounding lands within half a denominator of the value. -/
theorem roundHalfEven_abs_le (a : Frac) (hd : 0 < a.den) :
    2 * |a.roundHalfEven * a.den - a.num| ≤ a.den := by
  rw [roundHalfEven_emod a hd]
  have h1 := Int.ediv_add_emod a.num a.den
  have r1nn := Int.emod_nonneg a.num (ne_of_gt hd)
  have r1lt := Int.emod_lt_of_pos a.num hd
  have hfd : a.num / a.den * a.den - a.num = -(a.num % a.den) := by
    rw [Int.emod_def]; ring
  have hfd1 : (a.num / a.den + 1) * a.den - a.num = a.den - a.num % a.den := by
    rw [Int.emod_def]; ring
  split_ifs with hc1 hc2 hc3
  · rw [hfd, abs_neg, abs_of_nonneg r1nn]; omega
  · rw [hfd1, abs_of_nonneg (by omega)]; omega
  · rw [hfd, abs_neg, abs_of_nonneg r1nn]; omega
  · rw [hfd1, abs_of_nonneg (by omega)]; omega

/-- Half-even rounding is within `1/2` of the rational value. -/
theorem roundHalfEven_close (a : Frac) (hd : 0 < a.den) :
    |(a.roundHalfEven : ℚ) - a.toRat| ≤ 1 / 2 := by
  have hdQ : (0 : ℚ) < (a.den : ℚ) := by exact_mod_cast hd
  have hrw : (a.roundHalfEven : ℚ) - a.toRat =
      ((a.roundHalfEven * a.den - a.num : ℤ) : ℚ) / (a.den : ℚ) := by
    rw [Frac.toRat]
    push_cast
    field_simp
    try ring
  rw [hrw, abs_div, abs_of_pos hdQ, div_le_iff hdQ]
  have hint := roundHalfEven_abs_le a hd
  have hQ : (2 : ℚ) * ((|a.roundHalfEven * a.den - a.num| : ℤ) : ℚ) ≤ (a.den : ℚ) := by
    exact_mod_cast hint
  rw [Int.cast_abs] at hQ
  linarith

/-- Half-even rounding of an exact integer is that integer. -/
theorem roundHalfEven_intCast (a : Frac) (hd : 0 < a.den) (k : ℤ)
    (h : a.toRat = (k : ℚ)) : a.roundHalfEven = k := by
  have hdQ : ((a.den : ℚ)) ≠ 0 := by
    exact_mod_cast hd.ne'
  have hn : a.num = k * a.den := by
    rw [Frac.toRat, div_eq_iff hdQ] at h
    exact_mod_cast h
  rw [roundHalfEven_emod a hd, hn]
  rw [Int.mul_emod_left, Int.mul_ediv_cancel k (ne_of_gt hd)]
  simp [hd]

/-! ### Claim C3 — unit resolution priority -/

/-- C3 (counterexample): the claim says an explicit unit token in
`{mt, kt, t, kg}` always wins and context keyword phrases are consulted only
when no explicit token is present.  On the token `10` with explicit unit `t`
in the context `"10 thousand tonnes co2"`, `_infer_unit` returns `kt` (the
`"thousand tonnes"` keyword phrase), not the explicit `t`. -/
theorem C3_counterexample_explicit_unit_loses :
    _infer_unit "10 thousand tonnes co2" (some "t") = "kt" ∧ ("kt" : String) ≠ "t" :=
  ⟨rfl, by decide⟩

/-- C3 (amended): the priority is the reverse of the claim's — keyword phrases
in the surrounding context are consulted *first* and win even when an explicit
unit token is present; the explicit token (one of `mt/kt/t/kg`) is used only
when no keyword phrase matches; when neither applies (and none of the raw
substrings `kt`/`mt`/`kg` occurs in the context) the unit defaults to `t`. -/
theorem C3_amended_hints_take_priority (ctx : String) (explicit : Option String) :
    (∀ u, first_unit_hint (lower_str ctx) = some u → _infer_unit ctx explicit = u) ∧
    (first_unit_hint (lower_str ctx) = none →
      lower_str (explicit.getD "") ∈ (["mt", "kt", "t", "kg"] : List String) →
      _infer_unit ctx explicit = lower_str (explicit.getD "")) ∧
    (first_unit_hint (lower_str ctx) = none →
      lower_str (explicit.getD "") ∉ (["mt", "kt", "t", "kg"] : List String) →
      py_in "kt" (lower_str ctx) = false → py_in "mt" (lower_str ctx) = false →
      py_in "kg" (lower_str ctx) = false →
      _infer_unit ctx explicit = "t") := by
  refine ⟨fun u hu => ?_, fun hn hmem => ?_, fun hn hmem hkt hmt hkg => ?_⟩
  · simp [_infer_unit, hu]
  · simp only [List.mem_cons, List.not_mem_nil, or_false] at hmem
    simp [_infer_unit, hn]
    rcases hmem with h | h | h | h <;> simp [h]
  · simp only [List.mem_cons, List.not_mem_nil, or_false, not_or] at hmem
    obtain ⟨h1, h2, h3, h4⟩ := hmem
    simp [_infer_unit, hn, h1, h2, h3, h4, hkt, hmt, hkg]

/-- C3 (witness): a context whose `"tco2"` keyword phrase fires, overriding the
explicit `kg` token. -/
theorem C3_amended_witness :
    first_unit_hint (lower_str "reported in tCO2e") = some "t" ∧
    _infer_unit "reported in tCO2e" (some "kg") = "t" :=
  ⟨rfl, (C3_amended_hints_take_priority "reported in tCO2e" (some "kg")).1 "t" rfl⟩

/-! ### Claim C4 — end-to-end scenario A

The evaluation of `parse_data_fuzzy` on scenario A is established piecewise:
one small `rfl` lemma per `fuzz_score` call (so each kernel check stays
cheap), then the pattern folds, the extraction, and the final assembly are
discharged by rewriting with those lemmas. -/

set_option maxRecDepth 200000

/-- Scores of the scope-1 label phrases against the two lowered lines. -/
theorem fz1a1 : fuzz_score "total scope 1 emissions: 1,234 tco2e" "total scope 1" = ⟨2600, 26⟩ := rfl

theorem fz1b1 : fuzz_score "total scope 1 emissions: 1,234 tco2e" "scope 1 emissions" = ⟨3400, 34⟩ := rfl

theorem fz1c1 : fuzz_score "total scope 1 emissions: 1,234 tco2e" "scope i emissions" = ⟨3200, 34⟩ := rfl

theorem fz1d1 : fuzz_score "total scope 1 emissions: 1,234 tco2e" "scope 1" = ⟨1400, 14⟩ := rfl

theorem fz1a2 : fuzz_score "total scope 2 emissions (market-based): 500 tco2e" "total scope 1" = ⟨2400, 25⟩ := rfl

theorem fz1b2 : fuzz_score "total scope 2 emissions (market-based): 500 tco2e" "scope 1 emissions" = ⟨3200, 34⟩ := rfl

theorem fz1c2 : fuzz_score "total scope 2 emissions (market-based): 500 tco2e" "scope i emissions" = ⟨3200, 34⟩ := rfl

theorem fz1d2 : fuzz_score "total scope 2 emissions (market-based): 500 tco2e" "scope 1" = ⟨1200, 14⟩ := rfl

/-- Scores of the scope-2 label phrases against the two lowered lines. -/
theorem fz2a1 : fuzz_score "total scope 1 emissions: 1,234 tco2e" "total scope 2" = ⟨2400, 25⟩ := rfl

theorem fz2b1 : fuzz_score "total scope 1 emissions: 1,234 tco2e" "scope 2 emissions" = ⟨3200, 34⟩ := rfl

theorem fz2c1 : fuzz_score "total scope 1 emissions: 1,234 tco2e" "scope ii emissions" = ⟨3200, 36⟩ := rfl

theorem fz2d1 : fuzz_score "total scope 1 emissions: 1,234 tco2e" "scope 2" = ⟨1200, 14⟩ := rfl

theorem fz2a2 : fuzz_score "total scope 2 emissions (market-based): 500 tco2e" "total scope 2" = ⟨2600, 26⟩ := rfl

theorem fz2b2 : fuzz_score "total scope 2 emissions (market-based): 500 tco2e" "scope 2 emissions" = ⟨3400, 34⟩ := rfl

theorem fz2c2 : fuzz_score "total scope 2 emissions (market-based): 500 tco2e" "scope ii emissions" = ⟨3200, 36⟩ := rfl

theorem fz2d2 : fuzz_score "total scope 2 emissions (market-based): 500 tco2e" "scope 2" = ⟨1400, 14⟩ := rfl

/-- Scores of the scope-3 label phrases against the two lowered lines. -/
theorem fz3a1 : fuzz_score "total scope 1 emissions: 1,234 tco2e" "total scope 3" = ⟨2400, 25⟩ := rfl

theorem fz3b1 : fuzz_score "total scope 1 emissions: 1,234 tco2e" "scope 3 emissions" = ⟨3200, 34⟩ := rfl

theorem fz3c1 : fuzz_score "total scope 1 emissions: 1,234 tco2e" "scope iii emissions" = ⟨3200, 38⟩ := rfl

theorem fz3d1 : fuzz_score "total scope 1 emissions: 1,234 tco2e" "scope 3" = ⟨1200, 14⟩ := rfl

theorem fz3a2 : fuzz_score "total scope 2 emissions (market-based): 500 tco2e" "total scope 3" = ⟨2400, 25⟩ := rfl

theorem fz3b2 : fuzz_score "total scope 2 emissions (market-based): 500 tco2e" "scope 3 emissions" = ⟨3200, 34⟩ := rfl

theorem fz3c2 : fuzz_score "total scope 2 emissions (market-based): 500 tco2e" "scope iii emissions" = ⟨3200, 38⟩ := rfl

theorem fz3d2 : fuzz_score "total scope 2 emissions (market-based): 500 tco2e" "scope 3" = ⟨1200, 14⟩ := rfl

theorem lowA1 : lower_str "Total Scope 1 emissions: 1,234 tCO2e" =
    "total scope 1 emissions: 1,234 tco2e" := rfl

theorem lowA2 : lower_str "Total Scope 2 emissions (market-based): 500 tCO2e" =
    "total scope 2 emissions (market-based): 500 tco2e" := rfl

theorem enumA : (["Total Scope 1 emissions: 1,234 tCO2e",
    "Total Scope 2 emissions (market-based): 500 tCO2e"] : List String).enum =
    [(0, "Total Scope 1 emissions: 1,234 tCO2e"),
     (1, "Total Scope 2 emissions (market-based): 500 tCO2e")] := rfl

/-- Scope-1 location on scenario A: line 0, score 100. -/
theorem findA_s1 : _find_scope_candidate
    ["Total Scope 1 emissions: 1,234 tCO2e",
     "Total Scope 2 emissions (market-based): 500 tCO2e"] scope1_patterns =
    (some 0, ⟨2600, 26⟩) := by
  rw [_find_scope_candidate, enumA]
  simp only [find_scope_go, scope1_patterns, List.foldl_cons, List.foldl_nil,
    scope_score_step, lowA1, lowA2, fz1a1, fz1b1, fz1c1, fz1d1, fz1a2, fz1b2,
    fz1c2, fz1d2]
  rfl

/-- Scope-2 location on scenario A: line 1, score 100. -/
theorem findA_s2 : _find_scope_candidate
    ["Total Scope 1 emissions: 1,234 tCO2e",
     "Total Scope 2 emissions (market-based): 500 tCO2e"] scope2_patterns =
    (some 1, ⟨2600, 26⟩) := by
  rw [_find_scope_candidate, enumA]
  simp only [find_scope_go, scope2_patterns, List.foldl_cons, List.foldl_nil,
    scope_score_step, lowA1, lowA2, fz2a1, fz2b1, fz2c1, fz2d1, fz2a2, fz2b2,
    fz2c2, fz2d2]
  rfl

/-- Scope-3 location on scenario A: line 0, score 96. -/
theorem findA_s3 : _find_scope_candidate
    ["Total Scope 1 emissions: 1,234 tCO2e",
     "Total Scope 2 emissions (market-based): 500 tCO2e"] scope3_patterns =
    (some 0, ⟨2400, 25⟩) := by
  rw [_find_scope_candidate, enumA]
  simp only [find_scope_go, scope3_patterns, List.foldl_cons, List.foldl_nil,
    scope_score_step, lowA1, lowA2, fz3a1, fz3b1, fz3c1, fz3d1, fz3a2, fz3b2,
    fz3c2, fz3d2]
  rfl

/-- Extraction around line 0 of scenario A. -/
theorem extA0 : _extract_numeric_value
    ["Total Scope 1 emissions: 1,234 tCO2e",
     "Total Scope 2 emissions (market-based): 500 tCO2e"] 0 =
    some ⟨1234000,
      "Total Scope 1 emissions: 1,234 tCO2e Total Scope 1 emissions: 1,234 tCO2e",
      0, true⟩ := rfl

/-- Extraction around line 1 of scenario A. -/
theorem extA1 : _extract_numeric_value
    ["Total Scope 1 emissions: 1,234 tCO2e",
     "Total Scope 2 emissions (market-based): 500 tCO2e"] 1 =
    some ⟨500000,
      "Total Scope 2 emissions (market-based): 500 tCO2e Total Scope 2 emissions (market-based): 500 tCO2e",
      0, true⟩ := rfl

theorem slotA_s1 : scope_slot
    ["Total Scope 1 emissions: 1,234 tCO2e",
     "Total Scope 2 emissions (market-based): 500 tCO2e"] scope1_patterns =
    some (1234000,
      "Total Scope 1 emissions: 1,234 tCO2e Total Scope 1 emissions: 1,234 tCO2e",
      ⟨2600, 26⟩) := by
  rw [scope_slot, findA_s1]
  rfl

theorem slotA_s2 : scope_slot
    ["Total Scope 1 emissions: 1,234 tCO2e",
     "Total Scope 2 emissions (market-based): 500 tCO2e"] scope2_patterns =
    some (500000,
      "Total Scope 2 emissions (market-based): 500 tCO2e Total Scope 2 emissions (market-based): 500 tCO2e",
      ⟨2600, 26⟩) := by
  rw [scope_slot, findA_s2]
  rfl

theorem slotA_s3 : scope_slot
    ["Total Scope 1 emissions: 1,234 tCO2e",
     "Total Scope 2 emissions (market-based): 500 tCO2e"] scope3_patterns =
    some (1234000,
      "Total Scope 1 emissions: 1,234 tCO2e Total Scope 1 emissions: 1,234 tCO2e",
      ⟨2400, 25⟩) := by
  rw [scope_slot, findA_s3]
  rfl

theorem plinesA : parse_lines scenarioA =
    ["Total Scope 1 emissions: 1,234 tCO2e",
     "Total Scope 2 emissions (market-based): 500 tCO2e"] := rfl

/-- Unfolding of `parse_data_fuzzy` in terms of the three scope slots, for an
abstract non-empty line list (so no slot is evaluated here). -/
theorem parse_assemble (s : String) (l : List String) (h : parse_lines s = l)
    (hne : l.isEmpty = false) :
    parse_data_fuzzy s =
      match scope_slot l scope1_patterns, scope_slot l scope2_patterns with
      | some r1, some r2 =>
        some { scope_1 := some r1.1, scope_1_context := some r1.2.1,
               scope_2 := some r2.1, scope_2_context := some r2.2.1,
               scope_3 := (scope_slot l scope3_patterns).map fun t => t.1,
               scope_3_context := (scope_slot l scope3_patterns).map fun t => t.2.1,
               qualifiers := none,
               scope_2_method := _detect_scope2_method (some r2.2.1),
               confidence := Frac.maxF ⟨1, 10⟩ (Frac.minF ⟨19, 20⟩
                 (Frac.div100 (Frac.minF r1.2.2 r2.2.2))) }
      | _, _ => none := by
  simp only [parse_data_fuzzy, h, hne, Bool.false_eq_true, if_false]

/-- The full evaluation of the deterministic method on scenario A. -/
theorem parse_scenarioA : parse_data_fuzzy scenarioA = some scenarioA_result := by
  rw [parse_assemble scenarioA
    ["Total Scope 1 emissions: 1,234 tCO2e",
     "Total Scope 2 emissions (market-based): 500 tCO2e"] plinesA rfl]
  rw [slotA_s1, slotA_s2, slotA_s3]
  rfl

/-- C4: on scenario A the deterministic method yields `scope_1 = 1,234,000` kg,
`scope_2 = 500,000` kg, `scope_2_method = "market"`, and a confidence between
0.1 and 0.95 (here exactly 0.95). -/
theorem C4_scenarioA_deterministic :
    ∃ r, parse_data_fuzzy scenarioA = some r ∧
      r.scope_1 = some 1234000 ∧ r.scope_2 = some 500000 ∧
      r.scope_2_method = some "market" ∧
      (1 : ℚ) / 10 ≤ r.confidence.toRat ∧ r.confidence.toRat ≤ 19 / 20 := by
  refine ⟨scenarioA_result, parse_scenarioA, rfl, rfl, rfl, ?_, ?_⟩ <;>
    norm_num [scenarioA_result, Frac.toRat]

/-! ### Claim C7 — unit normalization -/

theorem unit_factor_pos (u : String) : 0 < unit_factor u := by
  rw [unit_factor]; split_ifs <;> norm_num

theorem Frac.toRat_mulInt (a : Frac) (k : ℤ) :
    (Frac.mulInt a k).toRat = a.toRat * (k : ℚ) := by
  rw [Frac.mulInt, Frac.toRat, Frac.toRat]
  push_cast
  ring

/-- An accepted candidate always carries a positive converted value (the
`value <= 0` guard discards the rest). -/
theorem mk_candidate_value_pos {lines : List String} {base : Nat} {line : String}
    {offAbs : Nat} {m : ValueMatch} {c : Candidate × ℤ × Bool}
    (h : mk_candidate lines base line offAbs m = some c) : 0 < c.2.1 := by
  simp only [mk_candidate] at h
  split at h
  · exact absurd h (by simp)
  · split at h
    · exact absurd h (by simp)
    · split at h
      · exact absurd h (by simp)
      · split at h
        · exact absurd h (by simp)
        · rename_i hval hunit
          obtain rfl : c = _ := (Option.some.injEq _ _).mp h.symm
          simpa using lt_of_not_ge hval

/-- One fold step preserves positivity of the accumulated value. -/
theorem best_cand_step_pos {lines : List String} {base : Nat} {line : String}
    {offAbs : Nat} {acc : Option (Candidate × ℤ × Bool)} {m : ValueMatch}
    (hacc : ∀ x, acc = some x → 0 < x.2.1) :
    ∀ x, best_cand_step lines base line offAbs acc m = some x → 0 < x.2.1 := by
  intro x hx
  rw [best_cand_step] at hx
  rcases hmk : mk_candidate lines base line offAbs m with _ | cand <;>
    rw [hmk] at hx
  · exact hacc x hx
  · rcases acc with _ | b
    · obtain rfl : cand = x := by simpa using hx
      exact mk_candidate_value_pos hmk
    · simp only at hx
      by_cases hgt : cand_gt cand.1 b.1 = true
      · simp only [hgt, if_true] at hx
        obtain rfl : cand = x := by simpa using hx
        exact mk_candidate_value_pos hmk
      · simp only [hgt, if_false] at hx
        exact hacc x hx

theorem line_best_value_pos {lines : List String} {base : Nat} {line : String}
    {offAbs : Nat} {c : Candidate × ℤ × Bool}
    (h : line_best lines base line offAbs = some c) : 0 < c.2.1 := by
  rw [line_best] at h
  suffices H : ∀ (ms : List ValueMatch) (acc : Option (Candidate × ℤ × Bool)),
      (∀ x, acc = some x → 0 < x.2.1) →
      ∀ c', ms.foldl (best_cand_step lines base line offAbs) acc = some c' →
        0 < c'.2.1 by
    exact H _ none (by simp) c h
  intro ms
  induction ms with
  | nil => intro acc hacc c' h'; exact hacc c' h'
  | cons m ms ih =>
    intro acc hacc c' h'
    rw [List.foldl_cons] at h'
    exact ih _ (best_cand_step_pos hacc) c' h'

/-- Every value the candidate extractor returns is positive. -/
theorem extract_value_pos {lines : List String} {base : Nat} {r : ExtractResult}
    (h : _extract_numeric_value lines base = some r) : 0 < r.value := by
  rw [_extract_numeric_value] at h
  generalize search_order = offs at h
  induction offs with
  | nil => rw [extract_go] at h; exact absurd h (by simp)
  | cons off rest ih =>
    rw [extract_go] at h
    split at h
    · exact ih h
    · split at h
      · exact ih h
      · rename_i c hlb
        obtain rfl : r = _ := (Option.some.injEq _ _).mp h.symm
        exact line_best_value_pos hlb

/-- C7: the normalizer multiplies by the factor table
`{kg: 1, t: 1000, kt: 10⁶, mt: 10⁹}` and rounds to the nearest integer
(within 1/2, exact on integers, e.g. `(12.5, kt) ↦ 12,500,000`), the mapping
is monotone in the number, and any candidate whose converted value is ≤ 0 is
discarded by the extractor. -/
theorem C7_unit_normalization :
    (unit_factor "kg" = 1 ∧ unit_factor "t" = 1000 ∧ unit_factor "kt" = 1000000 ∧
      unit_factor "mt" = 1000000000) ∧
    (∀ (q : Frac) (u : String), u ∈ (["kg", "t", "kt", "mt"] : List String) →
      0 < q.den →
      |(convert_value q u : ℚ) - q.toRat * (unit_factor u : ℚ)| ≤ 1 / 2 ∧
      ∀ k : ℤ, q.toRat * (unit_factor u : ℚ) = (k : ℚ) → convert_value q u = k) ∧
    convert_value ⟨25, 2⟩ "kt" = 12500000 ∧
    (∀ (q q' : Frac) (u : String), 0 < q.den → 0 < q'.den →
      q.toRat ≤ q'.toRat → convert_value q u ≤ convert_value q' u) ∧
    (∀ lines idx r, _extract_numeric_value lines idx = some r → 0 < r.value) := by
  refine ⟨⟨rfl, rfl, rfl, rfl⟩, ?_, rfl, ?_, fun lines idx r h => extract_value_pos h⟩
  · intro q u _ hq
    have hden : 0 < (Frac.mulInt q (unit_factor u)).den := hq
    constructor
    · have := roundHalfEven_close (Frac.mulInt q (unit_factor u)) hden
      rwa [Frac.toRat_mulInt] at this
    · intro k hk
      exact roundHalfEven_intCast _ hden k (by rwa [Frac.toRat_mulInt])
  · intro q q' u hq hq' hle
    have hf := unit_factor_pos u
    have hcross : q.num * q'.den ≤ q'.num * q.den := by
      have := (Frac.le_iff hq hq').mpr hle
      rwa [Frac.le, decide_eq_true_eq] at this
    apply roundHalfEven_mono (a := Frac.mulInt q (unit_factor u))
      (b := Frac.mulInt q' (unit_factor u)) hq hq'
    show q.num * unit_factor u * q'.den ≤ q'.num * unit_factor u * q.den
    nlinarith [hcross, hf]

/-- C7 (witness): monotonicity at `12.5 ≤ 13` over `kt`, and positivity of the
value extracted from `"Scope 1: 45 ktCO2"`. -/
theorem C7_witness :
    Frac.toRat ⟨25, 2⟩ ≤ Frac.toRat ⟨13, 1⟩ ∧
    convert_value ⟨25, 2⟩ "kt" ≤ convert_value ⟨13, 1⟩ "kt" ∧
    _extract_numeric_value ["Scope 1: 45 ktCO2"] 0 =
      some ⟨45000000, "Scope 1: 45 ktCO2 Scope 1: 45 ktCO2", 0, true⟩ ∧
    (0 : ℤ) < 45000000 := by
  refine ⟨by norm_num [Frac.toRat], ?_, rfl, ?_⟩
  · exact C7_unit_normalization.2.2.2.1 ⟨25, 2⟩ ⟨13, 1⟩ "kt" (by norm_num)
      (by norm_num) (by norm_num [Frac.toRat])
  · exact C7_unit_normalization.2.2.2.2 ["Scope 1: 45 ktCO2"] 0
      ⟨45000000, "Scope 1: 45 ktCO2 Scope 1: 45 ktCO2", 0, true⟩ rfl

/-! ### Claim C9 — excerpt-derived value adjustment in the merge -/

/-- C9: before storing a scope value the backend merge re-parses the first
numeric token of that scope's supporting excerpt and replaces the accepted
value by the excerpt-derived one exactly when the excerpt-derived value is at
least 10× the parsed value or differs from it by at most
`max(1000, 1% of the excerpt-derived value)`; consequently a merged record can
persist a value different from the one the accepted method returned. -/
theorem C9_merge_adjusts_from_context :
    (∀ (r expected : ℤ) (ctx : String), 0 < r → _adjust_expected ctx = some expected →
      r ≠ expected →
      _adjust_value_from_context (some r) (some ctx) =
        (if 10 * r ≤ expected ∨
            ((|expected - r| : ℤ) : ℚ) ≤ max 1000 ((expected : ℚ) / 100)
         then some expected else some r)) ∧
    (update_company_emissions c9_company c9_parsed "python" "text" none [] =
        .ok (true, c9_merged) ∧
      (c9_merged.emissions.scope_1.map fun s => s.value) = some 5000000 ∧
      c9_parsed.scope_1 = some 2) := by
  constructor
  · intro r expected ctx hr hexp hne
    rw [_adjust_value_from_context]
    rw [if_neg (not_le.mpr hr)]
    by_cases hctx : ctx = ""
    · subst hctx
      exact absurd hexp (by rw [_adjust_expected]; simp [value_search])
    · rw [if_neg hctx, hexp]
      dsimp only
      rw [if_neg hne]
      have hc1 : (Frac.le (Frac.ofInt 10) ⟨expected, r⟩ = true) ↔ 10 * r ≤ expected := by
        simp [Frac.le, Frac.ofInt]
      have hden2 : 0 < (Frac.maxF (Frac.ofInt 1000)
          (Frac.div100 (Frac.ofInt expected))).den := by
        apply Frac.den_maxF <;> norm_num [Frac.ofInt, Frac.div100]
      have hc2 : (Frac.le (Frac.ofInt |expected - r|)
            (Frac.maxF (Frac.ofInt 1000) (Frac.div100 (Frac.ofInt expected))) = true) ↔
          ((|expected - r| : ℤ) : ℚ) ≤ max 1000 ((expected : ℚ) / 100) := by
        rw [Frac.le_iff (by norm_num [Frac.ofInt]) hden2]
        rw [Frac.toRat_ofInt]
        rw [Frac.toRat_maxF (by norm_num [Frac.ofInt]) (by norm_num [Frac.div100, Frac.ofInt])]
        rw [Frac.toRat_div100, Frac.toRat_ofInt, Frac.toRat_ofInt]
        norm_num
      by_cases h1 : 10 * r ≤ expected
      · rw [if_pos (hc1.mpr h1), if_pos (Or.inl h1)]
      · rw [if_neg fun hcon => h1 (hc1.mp hcon)]
        by_cases h2 : ((|expected - r| : ℤ) : ℚ) ≤ max 1000 ((expected : ℚ) / 100)
        · rw [if_pos (hc2.mpr h2), if_pos (Or.inr h2)]
        · rw [if_neg fun hcon => h2 (hc2.mp hcon), if_neg (by tauto)]
  · exact ⟨rfl, rfl, rfl⟩

/-- C9 (witness): a scope-1 value of 2 with excerpt `"5000 tCO2e scope"` is
replaced by the excerpt-derived 5,000,000 (ratio ≥ 10). -/
theorem C9_witness :
    (0 : ℤ) < 2 ∧ _adjust_expected "5000 tCO2e scope" = some 5000000 ∧
    (2 : ℤ) ≠ 5000000 ∧
    _adjust_value_from_context (some 2) (some "5000 tCO2e scope") =
      (if 10 * 2 ≤ (5000000 : ℤ) ∨
          ((|(5000000 : ℤ) - 2| : ℤ) : ℚ) ≤ max 1000 ((5000000 : ℚ) / 100)
       then some 5000000 else some 2) :=
  ⟨by norm_num, rfl, by norm_num,
    C9_merge_adjusts_from_context.1 2 5000000 "5000 tCO2e scope"
      (by norm_num) rfl (by norm_num)⟩

/-! ### Claims C2 and C8 — the record merge contract -/

/-- Any merge that returns `True` leaves the verification record reset to
pending with all overrides, notes and timestamp cleared (only the reviewer is
preserved). -/
theorem merge_ok_true_verification {company : Company} {parsed : ParsedResult}
    {method snippet_label : String} {snippet_path : Option String}
    {snippet_pages : List ℤ} {c' : Company}
    (h : update_company_emissions company parsed method snippet_label snippet_path
        snippet_pages = .ok (true, c')) :
    c'.verification =
      { status := "pending", reviewer := company.verification.reviewer } := by
  rw [update_company_emissions] at h
  split at h
  · simp at h
  · simp at h
  · split at h
    · simp at h
    · split at h
      · simp at h
      · simp at h
      · simp only [] at h
        split at h
        · simp at h
        · simp only [Except.ok.injEq, Prod.mk.injEq] at h
          obtain ⟨-, h⟩ := h
          subst h
          rfl

/-- C2: a successful record merge (returning `True`) leaves
`verification.status = "pending"` and all three override fields `null`,
regardless of the record's prior verification state. -/
theorem C2_merge_resets_verification :
    ∀ (company : Company) (parsed : ParsedResult) (m l : String)
      (p : Option String) (pg : List ℤ) (c' : Company),
      update_company_emissions company parsed m l p pg = .ok (true, c') →
      c'.verification.status = "pending" ∧
      c'.verification.scope_1_override = none ∧
      c'.verification.scope_2_override = none ∧
      c'.verification.scope_3_override = none := by
  intro company parsed m l p pg c' h
  rw [merge_ok_true_verification h]
  exact ⟨rfl, rfl, rfl, rfl⟩

/-- C2 (witness): a successful merge onto a previously accepted, fully
overridden record resets the verification state. -/
theorem C2_witness :
    update_company_emissions c2_company c2_parsed "python" "text" none [] =
      .ok (true, c2_merged) ∧
    (c2_merged.verification.status = "pending" ∧
      c2_merged.verification.scope_1_override = none ∧
      c2_merged.verification.scope_2_override = none ∧
      c2_merged.verification.scope_3_override = none) :=
  ⟨rfl, C2_merge_resets_verification c2_company c2_parsed "python" "text" none []
    c2_merged rfl⟩

/-- C8: a result with a missing or non-positive `scope_1`/`scope_2` is rejected
before any mutation — the merge returns `False` with the company record
untouched. -/
theorem C8_invalid_result_leaves_record_unchanged :
    ∀ (company : Company) (parsed : ParsedResult) (m l : String)
      (p : Option String) (pg : List ℤ),
      (parsed.scope_1 = none ∨ parsed.scope_2 = none ∨
        (∃ v, parsed.scope_1 = some v ∧ v ≤ 0) ∨
        (∃ v, parsed.scope_2 = some v ∧ v ≤ 0)) →
      update_company_emissions company parsed m l p pg = .ok (false, company) := by
  intro company parsed m l p pg h
  rw [update_company_emissions]
  rcases h1 : parsed.scope_1 with _ | s1 <;> rcases h2 : parsed.scope_2 with _ | s2 <;>
    simp only [h1, h2]
  rcases h with hc | hc | ⟨v, hv, hvle⟩ | ⟨v, hv, hvle⟩
  · rw [h1] at hc; exact absurd hc (by simp)
  · rw [h2] at hc; exact absurd hc (by simp)
  · obtain rfl : v = s1 := by rw [h1] at hv; exact (Option.some.injEq _ _).mp hv.symm
    rw [if_pos (Or.inl hvle)]
  · obtain rfl : v = s2 := by rw [h2] at hv; exact (Option.some.injEq _ _).mp hv.symm
    rw [if_pos (Or.inr hvle)]

/-- C8 (witness): a result with `scope_1 = 0` is discarded with the record
unchanged. -/
theorem C8_witness :
    (c8_parsed.scope_1 = some 0 ∧ (0 : ℤ) ≤ 0) ∧
    update_company_emissions c8_company c8_parsed "python" "text" none [] =
      .ok (false, c8_company) :=
  ⟨⟨rfl, le_refl 0⟩,
    C8_invalid_result_leaves_record_unchanged c8_company c8_parsed "python" "text"
      none [] (Or.inr (Or.inr (Or.inl ⟨0, rfl, le_refl 0⟩)))⟩

/-! ### Claim C1 — the acceptance invariant -/

/-- Projections of `override_rest`: it marks the record accepted with both
override fields set, and leaves the scope-1/scope-2 entries of the emissions
it was given untouched. -/
theorem override_rest_projections (c : Company) (em1 : EmissionsData)
    (s3 : Option ℤ) (s1 s2 : ℤ) (notes reviewer : Option String) (now : Nat) :
    (override_rest c em1 s3 s1 s2 notes reviewer now).verification.status =
      "accepted" ∧
    (override_rest c em1 s3 s1 s2 notes reviewer now).verification.scope_1_override =
      some s1 ∧
    (override_rest c em1 s3 s1 s2 notes reviewer now).verification.scope_2_override =
      some s2 ∧
    (override_rest c em1 s3 s1 s2 notes reviewer now).emissions.scope_1 =
      em1.scope_1 ∧
    (override_rest c em1 s3 s1 s2 notes reviewer now).emissions.scope_2 =
      em1.scope_2 := by
  refine ⟨rfl, rfl, rfl, ?_, ?_⟩ <;>
    · rw [override_rest.eq_def]
      rcases s3 with _ | v3 <;> rcases h3 : em1.scope_3 with _ | s3v <;> simp [h3]

/-- C1 (counterexample): the review-accept operation marks a record with
entirely missing emissions as `accepted` — `apply_accept` performs no
completeness check, so the claimed invariant fails under a core operation
that is not the manual override. -/
theorem C1_counterexample_accept_incomplete :
    (apply_accept c1_company none none 0).verification.status = "accepted" ∧
    (apply_accept c1_company none none 0).emissions.scope_1 = none ∧
    (apply_accept c1_company none none 0).emissions.scope_2 = none :=
  ⟨rfl, rfl, rfl⟩

/-- C1 (amended): `apply_accept` sets `verification.status = "accepted"`
unconditionally, regardless of emissions completeness; the other core
operations do respect the invariant — a record merge never yields `accepted`
(a successful merge resets the status to `pending`), a reject always yields
`rejected`, and a manual override that succeeds records both supplied scope
values (as overrides and as the stored scope-1/scope-2 values). -/
theorem C1_amended_accept_unconditional :
    (∀ (c : Company) (notes reviewer : Option String) (now : Nat),
      (apply_accept c notes reviewer now).verification.status = "accepted") ∧
    (∀ (company : Company) (parsed : ParsedResult) (m l : String)
        (p : Option String) (pg : List ℤ) (c' : Company),
      update_company_emissions company parsed m l p pg = .ok (true, c') →
      c'.verification.status = "pending") ∧
    (∀ (c : Company) (s1 s2 : ℤ) (s3 : Option ℤ) (notes reviewer : Option String)
        (now : Nat) (c' : Company),
      apply_manual_override c s1 s2 s3 notes reviewer now = .ok c' →
      c'.verification.status = "accepted" ∧
      c'.verification.scope_1_override = some s1 ∧
      c'.verification.scope_2_override = some s2 ∧
      (∃ sv, c'.emissions.scope_1 = some sv ∧ sv.value = s1) ∧
      (∃ sv, c'.emissions.scope_2 = some sv ∧ sv.value = s2)) ∧
    (∀ (c : Company) (ns : Option SearchRecord) (nd : Option DownloadRecord)
        (notes reviewer : Option String) (now : Nat) (c' : Company),
      apply_reject c ns nd notes reviewer now = .ok c' →
      c'.verification.status = "rejected") := by
  refine ⟨fun c notes reviewer now => rfl, ?_, ?_, ?_⟩
  · intro company parsed m l p pg c' h
    rw [merge_ok_true_verification h]
  · intro c s1 s2 s3 notes reviewer now c' h
    rw [apply_manual_override] at h
    simp only [] at h
    split at h
    · split at h
      · exact absurd h (by simp)
      · rename_i heq
        rw [show normalise_method (some "manual") =
            Except.error "scope_2.method must be one of: market, location, unsure"
          from rfl] at heq
        exact absurd heq (by simp)
    · rename_i s2v hs2
      rw [Except.ok.injEq] at h
      subst h
      refine ⟨(override_rest_projections c _ s3 s1 s2 notes reviewer now).1,
        (override_rest_projections c _ s3 s1 s2 notes reviewer now).2.1,
        (override_rest_projections c _ s3 s1 s2 notes reviewer now).2.2.1, ?_, ?_⟩
      · rw [(override_rest_projections c _ s3 s1 s2 notes reviewer now).2.2.2.1]
        rcases hs1 : c.emissions.scope_1 with _ | sv1 <;> simp [hs1]
      · rw [(override_rest_projections c _ s3 s1 s2 notes reviewer now).2.2.2.2]
        exact ⟨_, rfl, rfl⟩
  · intro c ns nd notes reviewer now c' h
    rcases ns with _ | sr <;> rcases nd with _ | dr
    · simp [apply_reject] at h
    · simp only [apply_reject, Option.isSome_none, Option.isSome_some, Bool.not_false,
        Bool.and_true, List.nil_append, List.isEmpty_cons, Bool.false_eq_true,
        if_false, reduceIte] at h
      split at h
      · exact absurd h (by simp)
      · simp only [Except.ok.injEq] at h
        subst h
        rfl
    · simp only [apply_reject, Option.isSome_none, Option.isSome_some, Bool.not_true,
        Bool.and_false, List.append_nil, List.isEmpty_cons, Bool.false_eq_true,
        if_false, reduceIte] at h
      split at h
      · exact absurd h (by simp)
      · simp only [Except.ok.injEq] at h
        subst h
        rfl
    · simp only [apply_reject, Option.isSome_some, Bool.not_true, Bool.and_false,
        List.append_nil, List.isEmpty_cons, Bool.false_eq_true, if_false,
        reduceIte] at h
      split at h
      · exact absurd h (by simp)
      · simp only [Except.ok.injEq] at h
        subst h
        rfl

/-- C1 (witness): the four amended conjuncts at concrete inputs. -/
theorem C1_amended_witness :
    (apply_accept c1_company none none 0).verification.status = "accepted" ∧
    (update_company_emissions c1_company c1w_parsed "python" "text" none [] =
        .ok (true, c1w_merged) ∧
      c1w_merged.verification.status = "pending") ∧
    (apply_manual_override c1w_company 11 22 none none none 9 =
        .ok c1w_overridden ∧
      c1w_overridden.verification.status = "accepted" ∧
      c1w_overridden.verification.scope_1_override = some 11) ∧
    (apply_reject c1_company (some c1w_search) none none none 3 =
        .ok c1w_rejected ∧
      c1w_rejected.verification.status = "rejected") := by
  refine ⟨C1_amended_accept_unconditional.1 c1_company none none 0, ⟨rfl, ?_⟩,
    ⟨rfl, ?_⟩, rfl, ?_⟩
  · exact C1_amended_accept_unconditional.2.1 c1_company c1w_parsed "python" "text"
      none [] c1w_merged rfl
  · have hov := C1_amended_accept_unconditional.2.2.1 c1w_company 11 22 none none
      none 9 c1w_overridden rfl
    exact ⟨hov.1, hov.2.1⟩
  · exact C1_amended_accept_unconditional.2.2.2 c1_company (some c1w_search) none
      none none 3 c1w_rejected rfl

/-! ### Claim C5 — stage closure -/

theorem reset_search_snd (c : Company) :
    (_reset_search c).2 = { c with search_record := none } := by
  rw [_reset_search]
  split
  · rfl
  · rename_i h
    rw [not_ne_iff] at h
    rcases c with ⟨i, e, a, sr, dr, er, ar, v⟩
    simp only at h
    rw [h]

theorem reset_download_snd (c : Company) :
    (_reset_download c).2 = { c with download_record := none } := by
  rw [_reset_download]
  split
  · rfl
  · rename_i h
    rw [not_ne_iff] at h
    rcases c with ⟨i, e, a, sr, dr, er, ar, v⟩
    simp only at h
    rw [h]

theorem reset_extraction_snd (c : Company) :
    (_reset_extraction c).2 = { c with extraction_record := none } := by
  rw [_reset_extraction]
  split
  · rfl
  · rename_i h
    rw [not_ne_iff] at h
    rcases c with ⟨i, e, a, sr, dr, er, ar, v⟩
    simp only at h
    rw [h]

theorem reset_analysis_snd (c : Company) :
    (_reset_analysis c).2 =
      { c with analysis_record := none, emissions := {}, verification := {} } := by
  rcases c with ⟨i, e, a, sr, dr, er, ar, v⟩
  rcases e with ⟨e1, e2, e3⟩
  rw [_reset_analysis]
  simp only [_reset_verification]
  split_ifs with h1 h2 h2 <;> simp_all

theorem reset_s3_state (c : Company) :
    (reset_fold c ["s3", "s4", "s5"]).2 = s3_clear c := by
  rw [reset_fold, List.foldl_cons, List.foldl_cons, List.foldl_cons, List.foldl_nil]
  show (_reset_analysis (_reset_extraction (_reset_download c).2).2).2 = s3_clear c
  rw [reset_download_snd, reset_extraction_snd, reset_analysis_snd]
  rfl

theorem reset_s2_state (c : Company) :
    (reset_fold c ["s2", "s3", "s4", "s5"]).2 = s2_clear c := by
  rw [reset_fold, List.foldl_cons, List.foldl_cons, List.foldl_cons, List.foldl_cons,
    List.foldl_nil]
  show (_reset_analysis (_reset_extraction (_reset_download
    (_reset_search c).2).2).2).2 = s2_clear c
  rw [reset_search_snd, reset_download_snd, reset_extraction_snd, reset_analysis_snd]
  rfl

theorem reset_s3_spec (c : Company) :
    ∃ b, reset_company_stages c ["s3"] = .ok (b, s3_clear c) := by
  refine ⟨(reset_fold c ["s3", "s4", "s5"]).1, ?_⟩
  rw [reset_company_stages,
    show _expand_stages ["s3"] = Except.ok ["s3", "s4", "s5"] from rfl]
  rw [show (((reset_fold c ["s3", "s4", "s5"]).1, s3_clear c) : Bool × Company) =
    reset_fold c ["s3", "s4", "s5"] from by
      rw [← reset_s3_state c]]

theorem reset_s2_spec (c : Company) :
    ∃ b, reset_company_stages c ["s2"] = .ok (b, s2_clear c) := by
  refine ⟨(reset_fold c ["s2", "s3", "s4", "s5"]).1, ?_⟩
  rw [reset_company_stages,
    show _expand_stages ["s2"] = Except.ok ["s2", "s3", "s4", "s5"] from rfl]
  rw [show (((reset_fold c ["s2", "s3", "s4", "s5"]).1, s2_clear c) : Bool × Company) =
    reset_fold c ["s2", "s3", "s4", "s5"] from by
      rw [← reset_s2_state c]]

theorem reset_s3_clean (c : Company) :
    reset_company_stages (s3_clear c) ["s3"] = .ok (false, s3_clear c) := rfl

/-- C5: invalidating `s3` is idempotent (the second invalidation is a no-op
returning an unchanged state), invalidating `s2` clears a superset — search,
download, extraction records and emissions all empty (with the analysis record
cleared and verification back to pending) — and the result of
`reset_company_stages` depends on the requested stages only through their
transitive closure, which is computed before any clearing. -/
theorem C5_stage_closure :
    (∀ (c : Company) (b : Bool) (c₁ : Company),
      reset_company_stages c ["s3"] = .ok (b, c₁) →
      reset_company_stages c₁ ["s3"] = .ok (false, c₁)) ∧
    (∀ (c : Company) (b : Bool) (c' : Company),
      reset_company_stages c ["s2"] = .ok (b, c') →
      c'.search_record = none ∧ c'.download_record = none ∧
      c'.extraction_record = none ∧ c'.emissions = {} ∧
      c'.analysis_record = none ∧ c'.verification.status = "pending") ∧
    (∀ (c : Company) (stages stages' : List String),
      _expand_stages stages = _expand_stages stages' →
      reset_company_stages c stages = reset_company_stages c stages') := by
  refine ⟨?_, ?_, ?_⟩
  · intro c b c₁ h
    obtain ⟨b', hb⟩ := reset_s3_spec c
    rw [h] at hb
    simp only [Except.ok.injEq, Prod.mk.injEq] at hb
    obtain ⟨-, rfl⟩ := hb
    exact reset_s3_clean c
  · intro c b c' h
    obtain ⟨b', hb⟩ := reset_s2_spec c
    rw [h] at hb
    simp only [Except.ok.injEq, Prod.mk.injEq] at hb
    obtain ⟨-, rfl⟩ := hb
    exact ⟨rfl, rfl, rfl, rfl, rfl, rfl⟩
  · intro c stages stages' h
    rw [reset_company_stages, reset_company_stages, h]

/-- C5 (witness): a double `s3` invalidation on a record with a download, plus
the `s2` superset property on the same record, plus closure-only dependence
(`["s3"]` and `["S3"]` expand identically). -/
theorem C5_witness :
    (reset_company_stages c5_company ["s3"] = .ok (true, s3_clear c5_company) ∧
      reset_company_stages (s3_clear c5_company) ["s3"] =
        .ok (false, s3_clear c5_company)) ∧
    (reset_company_stages c5_company ["s2"] = .ok (true, s2_clear c5_company) ∧
      (s2_clear c5_company).search_record = none ∧
      (s2_clear c5_company).emissions = {}) ∧
    (_expand_stages ["s3"] = _expand_stages ["S3"] ∧
      reset_company_stages c5_company ["s3"] =
        reset_company_stages c5_company ["S3"]) := by
  refine ⟨⟨rfl, ?_⟩, ⟨rfl, ?_, ?_⟩, rfl, ?_⟩
  · exact C5_stage_closure.1 c5_company true (s3_clear c5_company) rfl
  · exact (C5_stage_closure.2.1 c5_company true (s2_clear c5_company) rfl).1
  · exact (C5_stage_closure.2.1 c5_company true (s2_clear c5_company) rfl).2.2.2.1
  · exact C5_stage_closure.2.2 c5_company ["s3"] ["S3"] rfl

/-! ### Claim C6 — the no-result guarantee -/

theorem scope_score_step_lt {lowered : String} {idx : Nat} {a : Option Nat × Frac}
    {p : String}
    (hp : Frac.lt (fuzz_score lowered p) (Frac.ofInt 60) = true)
    (ha : Frac.lt a.2 (Frac.ofInt 60) = true) :
    Frac.lt (scope_score_step lowered idx a p).2 (Frac.ofInt 60) = true := by
  rw [scope_score_step]
  split
  · exact hp
  · exact ha

theorem pattern_fold_lt (lowered : String) (idx : Nat) :
    ∀ (pats : List String) (a : Option Nat × Frac),
      (∀ p ∈ pats, Frac.lt (fuzz_score lowered p) (Frac.ofInt 60) = true) →
      Frac.lt a.2 (Frac.ofInt 60) = true →
      Frac.lt ((pats.foldl (scope_score_step lowered idx) a).2) (Frac.ofInt 60) =
        true := by
  intro pats
  induction pats with
  | nil => intro a _ ha; exact ha
  | cons p ps ih =>
    intro a hall ha
    rw [List.foldl_cons]
    exact ih _ (fun q hq => hall q (List.mem_cons_of_mem _ hq))
      (scope_score_step_lt (hall p (List.mem_cons_self _ _)) ha)

theorem find_scope_go_lt (patterns : List String) :
    ∀ (pairs : List (Nat × String)) (acc : Option Nat × Frac),
      (∀ q ∈ pairs, ∀ p ∈ patterns,
        Frac.lt (fuzz_score (lower_str q.2) p) (Frac.ofInt 60) = true) →
      Frac.lt acc.2 (Frac.ofInt 60) = true →
      Frac.lt (find_scope_go patterns pairs acc).2 (Frac.ofInt 60) = true := by
  intro pairs
  induction pairs with
  | nil => intro acc _ hacc; rw [find_scope_go]; exact hacc
  | cons q rest ih =>
    intro acc hall hacc
    rcases q with ⟨idx, line⟩
    rw [find_scope_go]
    exact ih _ (fun q' hq' p hp => hall q' (List.mem_cons_of_mem _ hq') p hp)
      (pattern_fold_lt _ idx patterns acc
        (hall (idx, line) (List.mem_cons_self _ _)) hacc)

/-- If every line scores below 60 against every pattern of a scope, that scope
produces no slot. -/
theorem scope_slot_none {lines : List String} {pats : List String}
    (h : ∀ line ∈ lines, ∀ p ∈ pats,
      Frac.lt (fuzz_score (lower_str line) p) (Frac.ofInt 60) = true) :
    scope_slot lines pats = none := by
  rw [scope_slot]
  have hscore : Frac.lt (_find_scope_candidate lines pats).2 (Frac.ofInt 60) =
      true := by
    rw [_find_scope_candidate]
    refine find_scope_go_lt pats lines.enum (none, Frac.ofInt 0) ?_ (by decide)
    intro q hq p hp
    have hmem : q.2 ∈ lines := by
      rcases q with ⟨i, line⟩
      have := List.mem_enum_iff_getElem?.mp hq
      exact List.getElem?_mem this
    exact h q.2 hmem p hp
  rcases hfc : _find_scope_candidate lines pats with ⟨oi, score⟩
  rw [hfc] at hscore
  rcases oi with _ | idx
  · rfl
  · simp only []
    rw [if_pos hscore]

/-- C6: if no non-blank line of a snippet scores at least 60 fuzzy points
against the scope-1 label phrases — or none against the scope-2 phrases — the
deterministic method returns no result; and in general it never returns a
partial result missing one of the two required scopes. -/
theorem C6_no_result_guarantee :
    (∀ s : String,
      ((∀ line ∈ parse_lines s, ∀ p ∈ scope1_patterns,
          (fuzz_score (lower_str line) p).toRat < 60) ∨
        (∀ line ∈ parse_lines s, ∀ p ∈ scope2_patterns,
          (fuzz_score (lower_str line) p).toRat < 60)) →
      parse_data_fuzzy s = none) ∧
    (∀ (s : String) (r : ParsedResult), parse_data_fuzzy s = some r →
      r.scope_1 ≠ none ∧ r.scope_2 ≠ none) := by
  have conv : ∀ (line p : String),
      (fuzz_score (lower_str line) p).toRat < 60 →
      Frac.lt (fuzz_score (lower_str line) p) (Frac.ofInt 60) = true := by
    intro line p h
    rw [Frac.lt_iff (fuzz_score_den_pos _ _) (by norm_num [Frac.ofInt]),
      Frac.toRat_ofInt]
    exact_mod_cast h
  constructor
  · intro s hdis
    rw [parse_data_fuzzy]
    split
    · rfl
    · rcases hdis with h1 | h2
      · simp only [scope_slot_none (fun l hl p hp => conv l p (h1 l hl p hp))]
      · rcases hsl : scope_slot (parse_lines s) scope1_patterns with _ | r1 <;>
          simp only [hsl,
            scope_slot_none (fun l hl p hp => conv l p (h2 l hl p hp))]
  · intro s r h
    rw [parse_data_fuzzy] at h
    split at h
    · exact absurd h (by simp)
    · simp only [] at h
      split at h
      · rename_i r1 r2 _ _
        simp only [Option.some.injEq] at h
        subst h
        exact ⟨by simp, by simp⟩
      · exact absurd h (by simp)

/-- C6 (witness): the single-line snippet `"."` scores 0 against every scope-1
phrase and yields no result. -/
theorem C6_witness :
    (∀ line ∈ parse_lines ".", ∀ p ∈ scope1_patterns,
      (fuzz_score (lower_str line) p).toRat < 60) ∧
    parse_data_fuzzy "." = none := by
  have hQ : ∀ line ∈ parse_lines ".", ∀ p ∈ scope1_patterns,
      (fuzz_score (lower_str line) p).toRat < 60 := by
    have hb : ∀ line ∈ parse_lines ".", ∀ p ∈ scope1_patterns,
        Frac.lt (fuzz_score (lower_str line) p) (Frac.ofInt 60) = true := by decide
    intro line hl p hp
    have hlt := hb line hl p hp
    rw [Frac.lt_iff (fuzz_score_den_pos _ _) (by norm_num [Frac.ofInt]),
      Frac.toRat_ofInt] at hlt
    exact_mod_cast hlt
  exact ⟨hQ, C6_no_result_guarantee.1 "." (Or.inl hQ)⟩

end ScopeSpider
